import Mathlib

/-!
Verification development for the openclaw-dingtalk channel plugin.

Shallow embedding of the interactive-card streaming engine, the card cache,
the session/dedup manager, the retry executor, the gateway stream consumer
and the media-marker post-processing passes, together with theorems about
the behaviour of those components.

External effects (HTTP calls, the filesystem, `JSON.parse`, `Math.random`)
are modelled as explicit outcome parameters ("oracles"); all control flow,
state mutation and text processing is translated directly from the source.
Strings manipulated character-by-character by the source (regex scanning,
`trim`, `slice`) are modelled as `List Char`.
-/

set_option maxHeartbeats 1000000

namespace DingTalk

/-! ## Generic JS `Map` model (insertion-ordered association list) -/

def mapGet {α : Type} : List (String × α) → String → Option α
  | [], _ => none
  | (k', v) :: rest, k => if k' == k then some v else mapGet rest k

def mapSet {α : Type} : List (String × α) → String → α → List (String × α)
  | [], k, v => [(k, v)]
  | (k', v') :: rest, k, v =>
    if k' == k then (k, v) :: rest else (k', v') :: mapSet rest k v

def mapDelete {α : Type} : List (String × α) → String → List (String × α)
  | [], _ => []
  | (k', v') :: rest, k => if k' == k then rest else (k', v') :: mapDelete rest k

/-! ## AI Card data model (src/types.ts, src/card/ai-card.ts) -/

/-- Status code `AICardStatus.PROCESSING`. -/
def PROCESSING : String := "1"

/-- Status code `AICardStatus.INPUTING`. -/
def INPUTING : String := "2"

/-- Status code `AICardStatus.FINISHED`. -/
def FINISHED : String := "3"

/-- Status code `AICardStatus.EXECUTING`. -/
def EXECUTING : String := "4"

/-- Status code `AICardStatus.FAILED`. -/
def FAILED : String := "5"

/-- Function `isCardInTerminalState` from src/card/ai-card.ts. -/
def isCardInTerminalState (state : String) : Bool :=
  state == FINISHED || state == FAILED

/-- Structure `AICardInstance` from src/types.ts (the `config` reference is omitted:
token refreshes consume it only through the `getAccessToken` oracle). -/
structure AICardInstance where
  cardInstanceId : String
  accessToken : String
  conversationId : String
  accountId : String
  createdAt : Nat
  lastUpdated : Nat
  state : String
  inputingStarted : Bool
deriving DecidableEq, Repr

/-- Constant `TOKEN_REFRESH_THRESHOLD` (90 minutes, in ms). -/
def TOKEN_REFRESH_THRESHOLD : Nat := 90 * 60 * 1000

/-- A thrown JS error, as far as `streamAICard` inspects it:
`axios.isAxiosError(e) && e.response?.status` -/
inductive JsError where
  | axiosErr (responseStatus : Option Nat) : JsError
  | otherErr (msg : String) : JsError
deriving DecidableEq, Repr

/-- the `axios.isAxiosError(error) && error.response?.status === 401` test -/
def is401 : JsError → Bool
  | JsError.axiosErr (some s) => s == 401
  | _ => false

/-- Remote requests issued by one `streamAICard` call, in order. -/
inductive CardEvent where
  | tokenRefresh (ok : Bool) : CardEvent
  | inputingSwitch (ok : Bool) : CardEvent
  | streamUpdate (content : String) (finalize : Bool) (isRetry : Bool) : CardEvent
deriving DecidableEq, Repr

def isInputingEvent : CardEvent → Bool
  | CardEvent.inputingSwitch _ => true
  | _ => false

def isSuccessfulInputingEvent : CardEvent → Bool
  | CardEvent.inputingSwitch true => true
  | _ => false

def isStreamEvent : CardEvent → Bool
  | CardEvent.streamUpdate _ _ _ => true
  | _ => false

def isRetryStreamEvent : CardEvent → Bool
  | CardEvent.streamUpdate _ _ true => true
  | _ => false

def isTokenRefreshEvent : CardEvent → Bool
  | CardEvent.tokenRefresh _ => true
  | _ => false

/-- the retried update carrying exactly the original content and finalize flag -/
def isSameRetryUpdate (content : String) (finalize : Bool) : CardEvent → Bool
  | CardEvent.streamUpdate c f true => c == content && f == finalize
  | _ => false

/-- Outcomes of the external calls a single `streamAICard` invocation can make. -/
structure StreamEnv where
  now : Nat
  refreshResult : Except JsError String
  inputingResult : Except JsError Unit
  streamResult : Except JsError Unit
  retryRefreshResult : Except JsError String
  retryStreamResult : Except JsError Unit

structure StreamOutcome where
  card : AICardInstance
  result : Except JsError Unit
  events : List CardEvent

/-- success bookkeeping of `streamAICard`: `card.lastUpdated = Date.now()` and
the state advance (`FINISHED` if `finished`, else `PROCESSING → INPUTING`). -/
def advanceOnSuccess (env : StreamEnv) (finished : Bool) (card : AICardInstance) :
    AICardInstance :=
  { card with
    lastUpdated := env.now
    state := if finished then FINISHED
             else if card.state == PROCESSING then INPUTING else card.state }

/-- failure bookkeeping of `streamAICard`: `card.state = FAILED`,
`card.lastUpdated = Date.now()`. -/
def markFailed (env : StreamEnv) (card : AICardInstance) : AICardInstance :=
  { card with state := FAILED, lastUpdated := env.now }

/-- the best-effort token refresh at the top of `streamAICard`
(refresh failure does not abort the push). -/
def preRefresh (env : StreamEnv) (card : AICardInstance) :
    AICardInstance × List CardEvent :=
  if env.now - card.createdAt > TOKEN_REFRESH_THRESHOLD then
    match env.refreshResult with
    | Except.ok tok => ({ card with accessToken := tok }, [CardEvent.tokenRefresh true])
    | Except.error _ => (card, [CardEvent.tokenRefresh false])
  else (card, [])

/-- The `PUT /v1.0/card/streaming` step of `streamAICard`, with the 401
refresh-and-retry handler and the catch-all failure path. -/
def streamBody (env : StreamEnv) (card : AICardInstance) (content : String)
    (finished : Bool) (evs : List CardEvent) : StreamOutcome :=
  match env.streamResult with
  | Except.ok _ =>
      ⟨advanceOnSuccess env finished card, Except.ok (),
        evs ++ [CardEvent.streamUpdate content finished false]⟩
  | Except.error e =>
      if is401 e then
        match env.retryRefreshResult with
        | Except.ok tok =>
            match env.retryStreamResult with
            | Except.ok _ =>
                ⟨advanceOnSuccess env finished { card with accessToken := tok },
                  Except.ok (),
                  evs ++ [CardEvent.streamUpdate content finished false,
                          CardEvent.tokenRefresh true,
                          CardEvent.streamUpdate content finished true]⟩
            | Except.error _ =>
                ⟨markFailed env { card with accessToken := tok }, Except.error e,
                  evs ++ [CardEvent.streamUpdate content finished false,
                          CardEvent.tokenRefresh true,
                          CardEvent.streamUpdate content finished true]⟩
        | Except.error _ =>
            ⟨markFailed env card, Except.error e,
              evs ++ [CardEvent.streamUpdate content finished false,
                      CardEvent.tokenRefresh false]⟩
      else
        ⟨markFailed env card, Except.error e,
          evs ++ [CardEvent.streamUpdate content finished false]⟩

/-- Function `streamAICard` from src/card/ai-card.ts. -/
def streamAICard (env : StreamEnv) (card : AICardInstance) (content : String)
    (finished : Bool) : StreamOutcome :=
  let pr := preRefresh env card
  if pr.1.inputingStarted then
    streamBody env pr.1 content finished pr.2
  else
    match env.inputingResult with
    | Except.ok _ =>
        streamBody env { pr.1 with inputingStarted := true } content finished
          (pr.2 ++ [CardEvent.inputingSwitch true])
    | Except.error e =>
        ⟨pr.1, Except.error e, pr.2 ++ [CardEvent.inputingSwitch false]⟩

/-- Function `finishAICard`: `streamAICard(card, content, true)` followed by a
best-effort `FINISHED` status update; that trailing request neither
modifies the local instance nor propagates its own failure. -/
def finishAICard (env : StreamEnv) (card : AICardInstance) (content : String) :
    StreamOutcome :=
  streamAICard env card content true

/-- one push of a sequence of `streamAICard` calls on a single instance -/
structure PushCall where
  env : StreamEnv
  content : String
  finished : Bool

/-- fold a sequence of `streamAICard` calls over one instance,
collecting the emitted remote requests -/
def runCalls (card : AICardInstance) : List PushCall → AICardInstance × List CardEvent
  | [] => (card, [])
  | c :: cs =>
      let o := streamAICard c.env card c.content c.finished
      let r := runCalls o.card cs
      (r.1, o.events ++ r.2)

/-- Holds (`true`) iff every INPUTING-switch request in the trace happens before the
first content-replace request -/
def switchesPrecedeStreams : List CardEvent → Bool
  | [] => true
  | e :: es =>
    if isStreamEvent e then es.all (fun x => !isInputingEvent x)
    else switchesPrecedeStreams es

/-! ## Card cache (src/card/card-cache.ts) -/

def getTargetKey (accountId conversationId : String) : String :=
  accountId ++ ":" ++ conversationId

structure CardCacheState where
  cardInstances : List (String × AICardInstance)
  activeCardsByTarget : List (String × String)
deriving DecidableEq, Repr

structure GetOrCreateOutcome where
  result : Option AICardInstance
  cache : CardCacheState
  calledCreate : Bool
deriving DecidableEq, Repr

/-- Function `getOrCreateCard` from src/card/card-cache.ts; `createResult` is the
outcome of the `createAICard` call (performed only on the create path). -/
def getOrCreateCard (createResult : Option AICardInstance) (st : CardCacheState)
    (accountId conversationId : String) : GetOrCreateOutcome :=
  let targetKey := getTargetKey accountId conversationId
  let lookedUp : Option AICardInstance × CardCacheState :=
    match mapGet st.activeCardsByTarget targetKey with
    | some existingCardId =>
        match mapGet st.cardInstances existingCardId with
        | some existingCard =>
            if isCardInTerminalState existingCard.state then
              (none,
                { st with
                  activeCardsByTarget := mapDelete st.activeCardsByTarget targetKey })
            else (some existingCard, st)
        | none =>
            (none,
              { st with
                activeCardsByTarget := mapDelete st.activeCardsByTarget targetKey })
    | none => (none, st)
  match lookedUp with
  | (some existingCard, st') => ⟨some existingCard, st', false⟩
  | (none, st') =>
      match createResult with
      | some newCard =>
          ⟨some newCard,
            { cardInstances := mapSet st'.cardInstances newCard.cardInstanceId newCard,
              activeCardsByTarget :=
                mapSet st'.activeCardsByTarget targetKey newCard.cardInstanceId },
            true⟩
      | none => ⟨none, st', true⟩

/-- Function `updateCardState` from src/card/card-cache.ts. -/
def updateCardState (m : List (String × AICardInstance)) (cardInstanceId : String)
    (state : String) (now : Nat) : List (String × AICardInstance) :=
  match mapGet m cardInstanceId with
  | some card => mapSet m cardInstanceId { card with state := state, lastUpdated := now }
  | none => m

/-- the create path of `getOrCreateCard`: the `createAICard` outcome is
returned, and only a non-null outcome is installed in both maps -/
def installResult (createResult : Option AICardInstance) (st : CardCacheState)
    (targetKey : String) : GetOrCreateOutcome :=
  match createResult with
  | some newCard =>
      ⟨some newCard,
        ⟨mapSet st.cardInstances newCard.cardInstanceId newCard,
          mapSet st.activeCardsByTarget targetKey newCard.cardInstanceId⟩,
        true⟩
  | none => ⟨none, st, true⟩

/-! ## Session manager (src/session/manager.ts) -/

structure UserSession where
  lastActivity : Nat
  sessionId : String
deriving DecidableEq, Repr

structure SessionContext where
  sessionKey : String
  isNew : Bool
  forceNew : Bool
deriving DecidableEq, Repr

/-- Function `getSessionKey` from src/session/manager.ts (`now` is `Date.now()`). -/
def getSessionKey (now : Nat) (sessions : List (String × UserSession))
    (senderId : String) (forceNew : Bool) (sessionTimeout : Nat) :
    SessionContext × List (String × UserSession) :=
  if forceNew then
    let sessionId := "dingtalk:" ++ senderId ++ ":" ++ toString now
    (⟨sessionId, true, true⟩, mapSet sessions senderId ⟨now, sessionId⟩)
  else
    match mapGet sessions senderId with
    | some existing =>
        if now - existing.lastActivity > sessionTimeout then
          let sessionId := "dingtalk:" ++ senderId ++ ":" ++ toString now
          (⟨sessionId, true, false⟩, mapSet sessions senderId ⟨now, sessionId⟩)
        else
          (⟨existing.sessionId, false, false⟩,
            mapSet sessions senderId ⟨now, existing.sessionId⟩)
    | none =>
        let sessionId := "dingtalk:" ++ senderId
        (⟨sessionId, false, false⟩, mapSet sessions senderId ⟨now, sessionId⟩)

/-! ## Message dedup (src/session/manager.ts) -/

/-- Duration of the dedup window (5 minutes, in ms). -/
def MESSAGE_DEDUP_TTL : Nat := 5 * 60 * 1000

/-- Function `isMessageProcessed`: `if (!messageId) return false; return map.has(id)`. -/
def isMessageProcessed (m : List (String × Nat)) (messageId : String) : Bool :=
  if messageId == "" then false
  else (mapGet m messageId).isSome

/-- Function `cleanupProcessedMessages`: drop every entry older than the window. -/
def cleanupProcessedMessages (now : Nat) (m : List (String × Nat)) :
    List (String × Nat) :=
  m.filter (fun e => !(now - e.2 > MESSAGE_DEDUP_TTL))

/-- Function `markMessageProcessed`: record the id at the current time, sweeping
opportunistically once the map holds 100 entries -/
def markMessageProcessed (now : Nat) (m : List (String × Nat)) (messageId : String) :
    List (String × Nat) :=
  if messageId == "" then m
  else
    let m' := mapSet m messageId now
    if 100 ≤ m'.length then cleanupProcessedMessages now m' else m'

/-- an operation later performed on the dedup map -/
inductive DedupOp where
  | mark (now : Nat) (messageId : String) : DedupOp
  | cleanup (now : Nat) : DedupOp

def DedupOp.time : DedupOp → Nat
  | DedupOp.mark now _ => now
  | DedupOp.cleanup now => now

def runDedupOps (m : List (String × Nat)) : List DedupOp → List (String × Nat)
  | [] => m
  | DedupOp.mark now id :: rest => runDedupOps (markMessageProcessed now m id) rest
  | DedupOp.cleanup now :: rest => runDedupOps (cleanupProcessedMessages now m) rest

/-! ## Retry executor (src/utils/retry.ts) -/

structure RetryOutcome (E T : Type) where
  result : Except E T
  executions : Nat
  delays : List ℚ

/-- loop body of `retryWithBackoff`: `attempt` is the 0-based attempt index,
`remaining` the number of retries still allowed (`maxRetries - attempt`);
`results a` is the outcome of executing the operation the `a`-th time and
`jitter a` the value `Math.random() * 1000` drawn after a failed attempt `a`. -/
def retryAux {E T : Type} (results : Nat → Except E T) (jitter : Nat → ℚ)
    (baseDelay maxDelay : ℚ) : Nat → Nat → RetryOutcome E T
  | attempt, 0 =>
    match results attempt with
    | Except.ok v => ⟨Except.ok v, 1, []⟩
    | Except.error e => ⟨Except.error e, 1, []⟩
  | attempt, remaining + 1 =>
    match results attempt with
    | Except.ok v => ⟨Except.ok v, 1, []⟩
    | Except.error _ =>
      let delay := min (baseDelay * 2 ^ attempt + jitter attempt) maxDelay
      let rest := retryAux results jitter baseDelay maxDelay (attempt + 1) remaining
      ⟨rest.result, rest.executions + 1, delay :: rest.delays⟩

/-- Function `retryWithBackoff` from src/utils/retry.ts. -/
def retryWithBackoff {E T : Type} (results : Nat → Except E T) (jitter : Nat → ℚ)
    (maxRetries : Nat) (baseDelay maxDelay : ℚ) : RetryOutcome E T :=
  retryAux results jitter baseDelay maxDelay 0 maxRetries

/-! ## Character-level string helpers (JS `trim` / prefix test, on `List Char`) -/

/-- prefix test on character lists -/
def isPre : List Char → List Char → Bool
  | [], _ => true
  | _ :: _, [] => false
  | p :: ps, c :: cs => p == c && isPre ps cs

def isJsWs (c : Char) : Bool :=
  c == ' ' || c == '\n' || c == '\t' || c == '\r'

/-- JS `String.prototype.trim` (over the whitespace the source can produce) -/
def jsTrim (s : List Char) : List Char :=
  ((s.dropWhile isJsWs).reverse.dropWhile isJsWs).reverse

/-! ## Gateway stream consumer (src/card/streaming.ts, `streamFromGateway`) -/

/-- a JSON value as produced by `JSON.parse` on one `data:` line -/
inductive Json where
  | null : Json
  | bool (b : Bool) : Json
  | num (n : Int) : Json
  | str (s : String) : Json
  | arr (elems : List Json) : Json
  | obj (fields : List (String × Json)) : Json

/-- JS truthiness of a parsed JSON value (`if (content)`) -/
def truthy : Json → Bool
  | Json.null => false
  | Json.bool b => b
  | Json.num n => n != 0
  | Json.str s => !s.isEmpty
  | Json.arr _ => true
  | Json.obj _ => true

def Json.getField : Json → String → Option Json
  | Json.obj fields, k => mapGet fields k
  | _, _ => none

def Json.getIndex : Json → Nat → Option Json
  | Json.arr elems, i => elems.get? i
  | _, _ => none

/-- Extraction `chunk.choices?.[0]?.delta?.content` (`none` = `undefined`). -/
def deltaContent (chunk : Json) : Option Json :=
  (((chunk.getField "choices").bind (fun c => c.getIndex 0)).bind
      (fun c => c.getField "delta")).bind
    (fun c => c.getField "content")

/-- the per-line loop of `streamFromGateway`: only `data: ` lines are
considered, `[DONE]` terminates, unparseable lines and falsy delta contents
are skipped, every other extracted content value is yielded.
`parse` is the `JSON.parse` oracle (`none` = throws). -/
def streamFromGateway (parse : List Char → Option Json) :
    List (List Char) → List Json
  | [] => []
  | line :: rest =>
    if !(isPre "data: ".data line) then streamFromGateway parse rest
    else
      let dat := jsTrim (line.drop 6)
      if dat == "[DONE]".data then []
      else
        match parse dat with
        | none => streamFromGateway parse rest
        | some chunk =>
          match deltaContent chunk with
          | some content =>
              if truthy content then content :: streamFromGateway parse rest
              else streamFromGateway parse rest
          | none => streamFromGateway parse rest

/-- what the specification asserts of every yielded fragment -/
def isNonEmptyStringJson : Json → Bool
  | Json.str s => !s.isEmpty
  | _ => false

/-! ## Media-marker scanning
(the regexes `\[DINGTALK_KIND\]({.*?})\[\/DINGTALK_KIND\]` of
src/post-process/file.ts and src/post-process/audio.ts, with JS global,
leftmost, lazy-payload match semantics) -/

/-- Opening tag `[DINGTALK_` ++ kind ++ `]`. -/
def openTag (kind : List Char) : List Char :=
  '[' :: 'D' :: 'I' :: 'N' :: 'G' :: 'T' :: 'A' :: 'L' :: 'K' :: '_' :: (kind ++ [']'])

/-- Closing tag `[/DINGTALK_` ++ kind ++ `]`. -/
def closeTag (kind : List Char) : List Char :=
  '[' :: '/' :: 'D' :: 'I' :: 'N' :: 'G' :: 'T' :: 'A' :: 'L' :: 'K' :: '_' :: (kind ++ [']'])

def fileKind : List Char := ['F', 'I', 'L', 'E']

def audioKind : List Char := ['A', 'U', 'D', 'I', 'O']

/-- a syntactically complete marker with the given payload interior -/
def mkMarker (kind inner : List Char) : List Char :=
  openTag kind ++ '{' :: (inner ++ '}' :: closeTag kind)

/-- a character the ECMAScript `.` (without the `s` flag) does not match:
LF, CR, LINE SEPARATOR (U+2028) or PARAGRAPH SEPARATOR (U+2029) -/
def isLineTerminator (c : Char) : Bool :=
  c == '\n' || c == '\r' || c == '\u2028' || c == '\u2029'

/-- lazy search for the first `}` that is immediately followed by the closing
tag; `.` of the regex does not cross any ECMAScript line terminator. Returns
the payload interior and the remainder after the closing tag. -/
def findClose (kind : List Char) : List Char → Option (List Char × List Char)
  | [] => none
  | c :: cs =>
    if c == '}' && isPre (closeTag kind) cs then
      some ([], cs.drop (closeTag kind).length)
    else if isLineTerminator c then none
    else
      match findClose kind cs with
      | some (inner, rest) => some (c :: inner, rest)
      | none => none

/-- try to match the marker regex at the start of `s`; on success returns the
captured group (`{...}`) and the remainder after the match. -/
def tryMatchAt (kind : List Char) (s : List Char) : Option (List Char × List Char) :=
  if isPre (openTag kind ++ ['{']) s then
    match findClose kind (s.drop (openTag kind ++ ['{']).length) with
    | some (inner, rest) => some ('{' :: (inner ++ ['}']), rest)
    | none => none
  else none

/-- fuel-indexed global scan: collects all non-overlapping leftmost matches
(the captured payload groups, as `matchAll` yields them) and the text with
every match removed (as `replace(pattern, '')` leaves it). -/
def scanAux (kind : List Char) : Nat → List Char → List (List Char) × List Char
  | 0, s => ([], s)
  | fuel + 1, s =>
    match s with
    | [] => ([], [])
    | c :: cs =>
      match tryMatchAt kind (c :: cs) with
      | some (p, rest) =>
          let r := scanAux kind fuel rest
          (p :: r.1, r.2)
      | none =>
          let r := scanAux kind fuel cs
          (r.1, c :: r.2)

/-- the payload groups found by `matchAll` and the `replace(pattern, '')`
result, for one marker kind -/
def scanMarkers (kind : List Char) (s : List Char) : List (List Char) × List Char :=
  scanAux kind s.length s

/-- number of marker matches of a kind remaining in a text -/
def countMarkers (kind : List Char) (s : List Char) : Nat :=
  (scanMarkers kind s).1.length

/-- a text interleaving marker-free segments with complete markers:
`pre ++ marker₁ ++ seg₁ ++ marker₂ ++ seg₂ ++ ...` -/
def markedText (kind : List Char) (pre : List Char) :
    List (List Char × List Char) → List Char
  | [] => pre
  | (inner, seg) :: rest => pre ++ mkMarker kind inner ++ markedText kind seg rest

/-! ## File post-processing pass (src/post-process/file.ts) -/

/-- Constant `MAX_FILE_SIZE` (20 MB). -/
def MAX_FILE_SIZE : Nat := 20 * 1024 * 1024

/-- the fields of a parsed `FileInfo` payload, with JS-falsy (missing or
empty) string fields collapsed to `[]` -/
structure FileInfoV where
  path : List Char
  fileName : List Char
  fileType : List Char
deriving DecidableEq, Repr

/-- outcomes of the external calls of the file pass: `JSON.parse`,
`fs.existsSync`, `fs.statSync().size`, `uploadMediaToDingTalk`
(`none` = null), and whether `sendFileMessage` returns without throwing -/
structure FileEnv where
  parse : List Char → Option FileInfoV
  fsExists : List Char → Bool
  fileSize : List Char → Nat
  upload : List Char → Option (List Char)
  sendOk : List Char → Bool

/-- Formatting `(size / (1024*1024)).toFixed(1)` (round half away from zero). -/
def formatSizeMB (size : Nat) : List Char :=
  let tenths := (size * 10 * 2 + 1024 * 1024) / (1024 * 1024 * 2)
  (toString (tenths / 10)).data ++ '.' :: (toString (tenths % 10)).data

/-- the single status line produced by one iteration of the per-file loop -/
def fileStatusFor (env : FileEnv) (info : FileInfoV) : List Char :=
  if !(env.fsExists info.path) then
    "⚠️ 文件不存在: ".data ++ info.fileName
  else if MAX_FILE_SIZE < env.fileSize info.path then
    "⚠️ 文件过大: ".data ++ info.fileName ++ "（".data ++
      formatSizeMB (env.fileSize info.path) ++ "MB，限制 20MB）".data
  else
    match env.upload info.path with
    | none => "⚠️ 文件上传失败: ".data ++ info.fileName
    | some _ =>
        if env.sendOk info.path then "✅ 文件已发送: ".data ++ info.fileName
        else "⚠️ 文件处理异常: ".data ++ info.fileName

/-- result of a post-processing pass (`mediaMessages` is always `[]` in the
file and audio passes) -/
structure ProcessResult where
  content : List Char
  mediaMessages : List (List Char)
  statusMessages : List (List Char)
deriving DecidableEq, Repr

/-- a file marker payload the pass accepts:
`JSON.parse` succeeds and `path` and `fileName` are truthy -/
def fileWellFormed (env : FileEnv) (payload : List Char) : Bool :=
  match env.parse payload with
  | some info => !info.path.isEmpty && !info.fileName.isEmpty
  | none => false

/-- Function `processFileMarkers` from src/post-process/file.ts. -/
def processFileMarkers (env : FileEnv) (oapiToken : Option (List Char))
    (content : List Char) : ProcessResult :=
  match oapiToken with
  | none => ⟨jsTrim (scanMarkers fileKind content).2, [], []⟩
  | some _ =>
    let found := (scanMarkers fileKind content).1
    let fileInfos := found.filterMap (fun payload =>
      match env.parse payload with
      | some info =>
          if !info.path.isEmpty && !info.fileName.isEmpty then some info else none
      | none => none)
    let cleanedContent := jsTrim (scanMarkers fileKind content).2
    if fileInfos.isEmpty then ⟨cleanedContent, [], []⟩
    else ⟨cleanedContent, [], fileInfos.map (fileStatusFor env)⟩

/-! ## Audio post-processing pass (src/post-process/audio.ts) -/

/-- the fields of a parsed `AudioInfo` payload (falsy path collapsed to `[]`) -/
structure AudioInfoV where
  path : List Char
deriving DecidableEq, Repr

/-- outcomes of the external calls of the audio pass -/
structure AudioEnv where
  parse : List Char → Option AudioInfoV
  fsExists : List Char → Bool
  upload : List Char → Option (List Char)
  sendOk : List Char → Bool

/-- Helper `path.basename` for the plain paths the pass handles. -/
def basename (p : List Char) : List Char :=
  (p.reverse.takeWhile (fun c => c != '/')).reverse

/-- the single status line produced by one iteration of the per-audio loop -/
def audioStatusFor (env : AudioEnv) (info : AudioInfoV) : List Char :=
  let fileName := basename info.path
  match env.upload info.path with
  | none => "⚠️ 音频上传失败: ".data ++ fileName ++ "（文件可能超过 20MB）".data
  | some _ =>
      if env.sendOk info.path then "✅ 音频已发送: ".data ++ fileName
      else "⚠️ 音频处理异常: ".data ++ fileName

/-- an audio marker payload that parses (the pass then reports it either as
sent/failed or as not-found, one line either way) -/
def audioWellFormed (env : AudioEnv) (payload : List Char) : Bool :=
  (env.parse payload).isSome

/-- Function `processAudioMarkers` from src/post-process/audio.ts; the source builds
`audioInfos` and `invalidAudios` in one pass over the matches, here split
into two order-preserving `filterMap`s -/
def processAudioMarkers (env : AudioEnv) (oapiToken : Option (List Char))
    (content : List Char) : ProcessResult :=
  match oapiToken with
  | none => ⟨jsTrim (scanMarkers audioKind content).2, [], []⟩
  | some _ =>
    let found := (scanMarkers audioKind content).1
    let audioInfos := found.filterMap (fun payload =>
      match env.parse payload with
      | some info =>
          if !info.path.isEmpty && env.fsExists info.path then some info else none
      | none => none)
    let invalidAudios := found.filterMap (fun payload =>
      match env.parse payload with
      | some info =>
          if !info.path.isEmpty && env.fsExists info.path then none
          else some (if info.path.isEmpty then "unknown".data else info.path)
      | none => none)
    let cleanedContent := jsTrim (scanMarkers audioKind content).2
    let invalidLines := invalidAudios.map
      (fun p => "⚠️ 音频文件不存在: ".data ++ basename p)
    if audioInfos.isEmpty then ⟨cleanedContent, [], invalidLines⟩
    else ⟨cleanedContent, [], invalidLines ++ audioInfos.map (audioStatusFor env)⟩

/-! ## Concrete fixtures used by counterexamples and witnesses -/

/-- a freshly created card (state `PROCESSING`, switch not yet issued) -/
def freshCard : AICardInstance :=
  ⟨"card_w", "tok", "conv", "acc", 0, 0, PROCESSING, false⟩

/-- an environment in which every remote call succeeds -/
def okEnv : StreamEnv :=
  ⟨1000, Except.ok "tok2", Except.ok (), Except.ok (), Except.ok "tok3", Except.ok ()⟩

/-- an environment in which the INPUTING switch fails -/
def inputingFailEnv : StreamEnv :=
  { okEnv with inputingResult := Except.error (JsError.otherErr "boom") }

/-- a one-entry cache holding a non-terminal card for target `acc:conv` -/
def cacheW : CardCacheState :=
  ⟨[("card_w", freshCard)], [("acc:conv", "card_w")]⟩

/-- a parsed wire event whose `choices[0].delta.content` is the number 1 -/
def chunkNum : Json :=
  Json.obj [("choices",
    Json.arr [Json.obj [("delta", Json.obj [("content", Json.num 1)])]])]

/-- a `JSON.parse` oracle producing `chunkNum` for the payload `x` -/
def parseNum : List Char → Option Json :=
  fun s => if s == "x".data then some chunkNum else none

/-- a file-pass environment whose every payload parses to a valid file info -/
def fenvW : FileEnv :=
  ⟨fun _ => some ⟨['a'], ['b'], []⟩, fun _ => false, fun _ => 0,
    fun _ => none, fun _ => false⟩

/-- an audio-pass environment whose every payload parses -/
def aenvW : AudioEnv :=
  ⟨fun _ => some ⟨['a']⟩, fun _ => false, fun _ => none, fun _ => false⟩

/-- an audio-pass environment in which `JSON.parse` always throws -/
def aenvBad : AudioEnv :=
  ⟨fun _ => none, fun _ => true, fun _ => none, fun _ => true⟩

/-- a file-pass environment accepting only the payload interior `p` -/
def fenvMixed : FileEnv :=
  ⟨fun p => if p = '{' :: ('p' :: ['}']) then some ⟨['a'], ['b'], []⟩ else none,
    fun _ => true, fun _ => 0, fun _ => some ['m'], fun _ => true⟩

/-- an audio-pass environment accepting only the payload interior `p` -/
def aenvMixed : AudioEnv :=
  ⟨fun p => if p = '{' :: ('p' :: ['}']) then some ⟨['a']⟩ else none,
    fun _ => true, fun _ => some ['m'], fun _ => true⟩

/-! # Theorems -/

/-! ## Association-list map lemmas -/

theorem mapGet_set_self {α : Type} (m : List (String × α)) (k : String) (v : α) :
    mapGet (mapSet m k v) k = some v := by
  induction m with
  | nil => simp [mapSet, mapGet]
  | cons hd tl ih =>
    obtain ⟨k', v'⟩ := hd
    cases h : k' == k <;> simp [mapSet, h, mapGet, ih]

theorem mapGet_set_ne {α : Type} (m : List (String × α)) (k k' : String) (v : α)
    (h : (k' == k) = false) : mapGet (mapSet m k' v) k = mapGet m k := by
  induction m with
  | nil => simp [mapSet, mapGet, h]
  | cons hd tl ih =>
    obtain ⟨k₀, v₀⟩ := hd
    by_cases h₀ : k₀ = k'
    · subst h₀
      simp [mapSet, mapGet, h]
    · simp [mapSet, mapGet, h₀, ih, h]

theorem mapGet_cleanup (now t : Nat) (m : List (String × Nat)) (id : String)
    (h : mapGet m id = some t) (hle : now - t ≤ MESSAGE_DEDUP_TTL) :
    mapGet (cleanupProcessedMessages now m) id = some t := by
  induction m with
  | nil => simp [mapGet] at h
  | cons hd tl ih =>
    obtain ⟨k, v⟩ := hd
    by_cases hk : (k == id) = true
    · simp [mapGet, hk] at h
      subst h
      simp [cleanupProcessedMessages, Nat.not_lt.mpr hle, mapGet, hk]
    · simp [mapGet, hk] at h
      have := ih h
      simp [cleanupProcessedMessages] at this ⊢
      by_cases hkeep : now - v ≤ MESSAGE_DEDUP_TTL
      · simp [Nat.not_lt.mpr hkeep, mapGet, hk, this]
      · simp [Nat.lt_of_not_le hkeep, this]

/-! ## C4: card cache get-or-create -/

theorem getOrCreateCard_reuse (createResult : Option AICardInstance)
    (st : CardCacheState) (accountId conversationId : String)
    (id : String) (c : AICardInstance)
    (hmap : mapGet st.activeCardsByTarget (getTargetKey accountId conversationId) = some id)
    (hcard : mapGet st.cardInstances id = some c)
    (hlive : isCardInTerminalState c.state = false) :
    getOrCreateCard createResult st accountId conversationId = ⟨some c, st, false⟩ := by
  simp [getOrCreateCard, hmap, hcard, hlive]

/-- C4: `getOrCreateCard` reuses a mapped non-terminal instance unchanged;
a mapped terminal or missing instance first has its mapping evicted, the
creation outcome is returned, and only a non-null creation installs both the
instance and the target mapping; an unmapped target goes straight to the
create path on the unchanged cache. -/
theorem c4_card_cache_get_or_create (createResult : Option AICardInstance)
    (st : CardCacheState) (accountId conversationId : String) :
    (∀ id c,
      mapGet st.activeCardsByTarget (getTargetKey accountId conversationId) = some id →
      mapGet st.cardInstances id = some c →
      isCardInTerminalState c.state = false →
      getOrCreateCard createResult st accountId conversationId = ⟨some c, st, false⟩) ∧
    (∀ id,
      mapGet st.activeCardsByTarget (getTargetKey accountId conversationId) = some id →
      (mapGet st.cardInstances id = none ∨
        ∃ c, mapGet st.cardInstances id = some c ∧ isCardInTerminalState c.state = true) →
      getOrCreateCard createResult st accountId conversationId =
        installResult createResult
          { st with
            activeCardsByTarget :=
              mapDelete st.activeCardsByTarget (getTargetKey accountId conversationId) }
          (getTargetKey accountId conversationId)) ∧
    (mapGet st.activeCardsByTarget (getTargetKey accountId conversationId) = none →
      getOrCreateCard createResult st accountId conversationId =
        installResult createResult st (getTargetKey accountId conversationId)) := by
  refine ⟨?_, ?_, ?_⟩
  · intro id c hmap hcard hlive
    simp [getOrCreateCard, hmap, hcard, hlive]
  · intro id hmap hstale
    rcases hstale with hnone | ⟨c, hc, hterm⟩
    · cases createResult <;> simp [getOrCreateCard, hmap, hnone, installResult]
    · cases createResult <;> simp [getOrCreateCard, hmap, hc, hterm, installResult]
  · intro hnone
    cases createResult <;> simp [getOrCreateCard, hnone, installResult]

theorem c4_witness :
    getOrCreateCard none cacheW "acc" "conv" = ⟨some freshCard, cacheW, false⟩ :=
  (c4_card_cache_get_or_create none cacheW "acc" "conv").1 "card_w" freshCard
    (by decide) (by decide) (by decide)

/-! ## C5: session key resolution -/

/-- C5 is corrected: on the very first message of a sender (no record,
`forceNew = false`) the minted key is `dingtalk:<sender>` with no epoch
component, and the result reports `isNew = false` — not a rollover of the
form `scope:sender:epoch` as claimed. -/
theorem c5_counterexample :
    (getSessionKey 1000 [] "u1" false 600000).1 =
      (⟨"dingtalk:u1", false, false⟩ : SessionContext) ∧
    (getSessionKey 1000 [] "u1" false 600000).1.sessionKey ≠
      "dingtalk:" ++ "u1" ++ ":" ++ toString 1000 ∧
    (getSessionKey 1000 [] "u1" false 600000).1.isNew = false := by
  decide

/-- C5 (amended): `forceNew` and timeout expiry mint and store
`scope:sender:epoch` reporting the rollover kind; a sender with no record
mints and stores the epoch-free key `scope:sender` reporting `isNew = false`;
otherwise the timestamp is refreshed and the existing key returned
unchanged. -/
theorem c5_session_key (now : Nat) (sessions : List (String × UserSession))
    (senderId : String) (timeout : Nat) :
    (getSessionKey now sessions senderId true timeout =
      (⟨"dingtalk:" ++ senderId ++ ":" ++ toString now, true, true⟩,
        mapSet sessions senderId ⟨now, "dingtalk:" ++ senderId ++ ":" ++ toString now⟩)) ∧
    (∀ ex, mapGet sessions senderId = some ex → timeout < now - ex.lastActivity →
      getSessionKey now sessions senderId false timeout =
        (⟨"dingtalk:" ++ senderId ++ ":" ++ toString now, true, false⟩,
          mapSet sessions senderId ⟨now, "dingtalk:" ++ senderId ++ ":" ++ toString now⟩)) ∧
    (mapGet sessions senderId = none →
      getSessionKey now sessions senderId false timeout =
        (⟨"dingtalk:" ++ senderId, false, false⟩,
          mapSet sessions senderId ⟨now, "dingtalk:" ++ senderId⟩)) ∧
    (∀ ex, mapGet sessions senderId = some ex → now - ex.lastActivity ≤ timeout →
      getSessionKey now sessions senderId false timeout =
        (⟨ex.sessionId, false, false⟩, mapSet sessions senderId ⟨now, ex.sessionId⟩)) := by
  refine ⟨by simp [getSessionKey], ?_, ?_, ?_⟩
  · intro ex hex hto
    simp [getSessionKey, hex, hto]
  · intro hnone
    simp [getSessionKey, hnone]
  · intro ex hex hle
    simp [getSessionKey, hex, Nat.not_lt.mpr hle]

theorem c5_session_key_witness :
    getSessionKey 7 [] "u1" true 5 =
      (⟨"dingtalk:" ++ "u1" ++ ":" ++ toString 7, true, true⟩,
        mapSet [] "u1" ⟨7, "dingtalk:" ++ "u1" ++ ":" ++ toString 7⟩) :=
  (c5_session_key 7 [] "u1" 5).1

/-! ## C6: message dedup -/

theorem markMessageProcessed_get (now : Nat) (m : List (String × Nat)) (id : String)
    (hid : (id == "") = false) :
    mapGet (markMessageProcessed now m id) id = some now := by
  simp only [markMessageProcessed, hid, Bool.false_eq_true, if_false]
  by_cases hlen : 100 ≤ (mapSet m id now).length
  · simp only [hlen, if_true]
    exact mapGet_cleanup now now _ id (mapGet_set_self m id now) (by simp)
  · simp [hlen, mapGet_set_self]

theorem runDedupOps_persist (id : String) (t : Nat) (hid : (id == "") = false) :
    ∀ (ops : List DedupOp) (m : List (String × Nat)),
      (∃ t', t ≤ t' ∧ mapGet m id = some t') →
      (∀ op ∈ ops, t ≤ op.time ∧ op.time ≤ t + MESSAGE_DEDUP_TTL) →
      ∃ t'', t ≤ t'' ∧ mapGet (runDedupOps m ops) id = some t'' := by
  intro ops
  induction ops with
  | nil => intro m hm _; exact hm
  | cons op rest ih =>
    intro m hm hops
    obtain ⟨t', ht', hget⟩ := hm
    have hop := hops op (by simp)
    have hrest : ∀ o ∈ rest, t ≤ o.time ∧ o.time ≤ t + MESSAGE_DEDUP_TTL := by
      intro o ho; exact hops o (by simp [ho])
    cases op with
    | mark now id2 =>
      simp only [runDedupOps]
      refine ih (markMessageProcessed now m id2) ?_ hrest
      by_cases hid2 : (id2 == "") = true
      · exact ⟨t', ht', by simpa [markMessageProcessed, hid2] using hget⟩
      · simp only [Bool.not_eq_true] at hid2
        by_cases heq : (id2 == id) = true
        · have : id2 = id := by simpa using heq
          subst this
          exact ⟨now, hop.1, markMessageProcessed_get now m id2 hid2⟩
        · simp only [Bool.not_eq_true] at heq
          refine ⟨t', ht', ?_⟩
          simp only [markMessageProcessed, hid2, Bool.false_eq_true, if_false]
          have hset : mapGet (mapSet m id2 now) id = some t' := by
            rw [mapGet_set_ne m id id2 now heq]; exact hget
          by_cases hlen : 100 ≤ (mapSet m id2 now).length
          · simp only [hlen, if_true]
            refine mapGet_cleanup now t' _ id hset ?_
            have h1 : now ≤ t + MESSAGE_DEDUP_TTL := hop.2
            omega
          · simpa [hlen] using hset
    | cleanup now =>
      simp only [runDedupOps]
      refine ih (cleanupProcessedMessages now m) ⟨t', ht', ?_⟩ hrest
      refine mapGet_cleanup now t' m id hget ?_
      have h1 : now ≤ t + MESSAGE_DEDUP_TTL := hop.2
      omega

/-- C6 is corrected: for the empty message id, `markMessageProcessed` is a
no-op, so `isMessageProcessed` stays `false` right after the mark — not
`true` as the claim requires of "any message id". -/
theorem c6_counterexample :
    isMessageProcessed (markMessageProcessed 0 [] "") "" = false := by
  decide

/-- C6 (amended): for any NON-EMPTY message id, `isMessageProcessed` is
`false` while the id is unrecorded, and after `markMessageProcessed` at time
`t` it is `true` and remains `true` across any later marks and sweeps whose
times stay within the 5-minute window after `t`. -/
theorem c6_dedup_window (m : List (String × Nat)) (id : String) (t : Nat)
    (ops : List DedupOp) (hid : ¬(id = "")) :
    (mapGet m id = none → isMessageProcessed m id = false) ∧
    isMessageProcessed (markMessageProcessed t m id) id = true ∧
    ((∀ op ∈ ops, t ≤ op.time ∧ op.time ≤ t + MESSAGE_DEDUP_TTL) →
      isMessageProcessed (runDedupOps (markMessageProcessed t m id) ops) id = true) := by
  have hidb : (id == "") = false := by simpa using hid
  refine ⟨?_, ?_, ?_⟩
  · intro hnone
    simp [isMessageProcessed, hnone]
  · simp [isMessageProcessed, hidb, markMessageProcessed_get t m id hidb]
  · intro hops
    obtain ⟨t'', _, hget⟩ := runDedupOps_persist id t hidb ops
      (markMessageProcessed t m id)
      ⟨t, le_refl t, markMessageProcessed_get t m id hidb⟩ hops
    simp [isMessageProcessed, hidb, hget]

theorem c6_dedup_window_witness :
    isMessageProcessed
      (runDedupOps (markMessageProcessed 10 [] "msg1") [DedupOp.cleanup 20]) "msg1" = true :=
  (c6_dedup_window [] "msg1" 10 [DedupOp.cleanup 20] (by decide)).2.2
    (by intro op hop; simp at hop; subst hop; exact ⟨by simp [DedupOp.time], by simp [DedupOp.time, MESSAGE_DEDUP_TTL]⟩)

/-! ## streamAICard unfolding lemmas -/

theorem preRefresh_fields (env : StreamEnv) (card : AICardInstance) :
    (preRefresh env card).1.state = card.state ∧
    (preRefresh env card).1.lastUpdated = card.lastUpdated ∧
    (preRefresh env card).1.inputingStarted = card.inputingStarted := by
  unfold preRefresh
  by_cases h : TOKEN_REFRESH_THRESHOLD < env.now - card.createdAt
  · cases hr : env.refreshResult <;> simp [h, hr]
  · simp [h]

theorem preRefresh_no_refresh (env : StreamEnv) (card : AICardInstance)
    (h : env.now - card.createdAt ≤ TOKEN_REFRESH_THRESHOLD) :
    preRefresh env card = (card, []) := by
  simp [preRefresh, Nat.not_lt.mpr h]

theorem streamBody_ok (env : StreamEnv) (card : AICardInstance) (content : String)
    (finished : Bool) (evs : List CardEvent) (h : env.streamResult = Except.ok ()) :
    streamBody env card content finished evs =
      ⟨advanceOnSuccess env finished card, Except.ok (),
        evs ++ [CardEvent.streamUpdate content finished false]⟩ := by
  simp [streamBody, h]

theorem streamBody_fail (env : StreamEnv) (card : AICardInstance) (content : String)
    (finished : Bool) (evs : List CardEvent) (e : JsError)
    (h : env.streamResult = Except.error e) (h4 : is401 e = false) :
    streamBody env card content finished evs =
      ⟨markFailed env card, Except.error e,
        evs ++ [CardEvent.streamUpdate content finished false]⟩ := by
  simp [streamBody, h, h4]

theorem streamBody_401_retry_ok (env : StreamEnv) (card : AICardInstance)
    (content : String) (finished : Bool) (evs : List CardEvent) (e : JsError)
    (tok : String) (h : env.streamResult = Except.error e) (h4 : is401 e = true)
    (hr : env.retryRefreshResult = Except.ok tok)
    (hretry : env.retryStreamResult = Except.ok ()) :
    streamBody env card content finished evs =
      ⟨advanceOnSuccess env finished { card with accessToken := tok }, Except.ok (),
        evs ++ [CardEvent.streamUpdate content finished false,
                CardEvent.tokenRefresh true,
                CardEvent.streamUpdate content finished true]⟩ := by
  simp [streamBody, h, h4, hr, hretry]

theorem streamBody_401_retry_fail (env : StreamEnv) (card : AICardInstance)
    (content : String) (finished : Bool) (evs : List CardEvent) (e e₂ : JsError)
    (tok : String) (h : env.streamResult = Except.error e) (h4 : is401 e = true)
    (hr : env.retryRefreshResult = Except.ok tok)
    (hretry : env.retryStreamResult = Except.error e₂) :
    streamBody env card content finished evs =
      ⟨markFailed env { card with accessToken := tok }, Except.error e,
        evs ++ [CardEvent.streamUpdate content finished false,
                CardEvent.tokenRefresh true,
                CardEvent.streamUpdate content finished true]⟩ := by
  simp [streamBody, h, h4, hr, hretry]

theorem streamBody_401_refresh_fail (env : StreamEnv) (card : AICardInstance)
    (content : String) (finished : Bool) (evs : List CardEvent) (e e₂ : JsError)
    (h : env.streamResult = Except.error e) (h4 : is401 e = true)
    (hr : env.retryRefreshResult = Except.error e₂) :
    streamBody env card content finished evs =
      ⟨markFailed env card, Except.error e,
        evs ++ [CardEvent.streamUpdate content finished false,
                CardEvent.tokenRefresh false]⟩ := by
  simp [streamBody, h, h4, hr]

theorem streamAICard_started (env : StreamEnv) (card : AICardInstance)
    (content : String) (finished : Bool) (hflag : card.inputingStarted = true) :
    streamAICard env card content finished =
      streamBody env (preRefresh env card).1 content finished (preRefresh env card).2 := by
  have h := (preRefresh_fields env card).2.2
  rw [hflag] at h
  simp [streamAICard, h]

theorem streamAICard_switch_ok (env : StreamEnv) (card : AICardInstance)
    (content : String) (finished : Bool) (hflag : card.inputingStarted = false)
    (hok : env.inputingResult = Except.ok ()) :
    streamAICard env card content finished =
      streamBody env { (preRefresh env card).1 with inputingStarted := true }
        content finished ((preRefresh env card).2 ++ [CardEvent.inputingSwitch true]) := by
  have h := (preRefresh_fields env card).2.2
  rw [hflag] at h
  simp [streamAICard, h, hok]

theorem streamAICard_switch_fail (env : StreamEnv) (card : AICardInstance)
    (content : String) (finished : Bool) (e : JsError)
    (hflag : card.inputingStarted = false)
    (herr : env.inputingResult = Except.error e) :
    streamAICard env card content finished =
      ⟨(preRefresh env card).1, Except.error e,
        (preRefresh env card).2 ++ [CardEvent.inputingSwitch false]⟩ := by
  have h := (preRefresh_fields env card).2.2
  rw [hflag] at h
  simp [streamAICard, h, herr]

/-! ## C1: push failure handling -/

/-- C1 is corrected: when the INPUTING state-transition step fails, the
error is re-raised but — contrary to the claim — the instance is NOT marked
`Failed` and `lastUpdated` is NOT updated (the state stays `PROCESSING` and
`lastUpdated` keeps its old value, distinct from the call time). -/
theorem c1_counterexample :
    (streamAICard inputingFailEnv freshCard "hello" false).result =
        Except.error (JsError.otherErr "boom") ∧
    (streamAICard inputingFailEnv freshCard "hello" false).card.state ≠ FAILED ∧
    (streamAICard inputingFailEnv freshCard "hello" false).card.lastUpdated =
      freshCard.lastUpdated ∧
    freshCard.lastUpdated ≠ inputingFailEnv.now :=
  ⟨rfl, by decide, rfl, by decide⟩

/-- C1 (amended): a failure of the INPUTING transition re-raises without
touching the state or `lastUpdated`; a non-401 failure of the content
replace marks the instance `Failed`, sets `lastUpdated` to the call time and
re-raises; a 401 triggers exactly one credential refresh and exactly one
retry of the identical update; a failed retry marks `Failed`, sets
`lastUpdated` and re-raises the original error; a 401 whose refresh fails
performs no retry, marks `Failed` and re-raises the original error. -/
theorem c1_push_failure_handling (env : StreamEnv) (card : AICardInstance)
    (content : String) (finished : Bool) :
    (∀ e, card.inputingStarted = false → env.inputingResult = Except.error e →
      (streamAICard env card content finished).result = Except.error e ∧
      (streamAICard env card content finished).card.state = card.state ∧
      (streamAICard env card content finished).card.lastUpdated = card.lastUpdated) ∧
    (∀ e, (card.inputingStarted = true ∨ env.inputingResult = Except.ok ()) →
      env.streamResult = Except.error e → is401 e = false →
      (streamAICard env card content finished).card.state = FAILED ∧
      (streamAICard env card content finished).card.lastUpdated = env.now ∧
      (streamAICard env card content finished).result = Except.error e) ∧
    (∀ e tok, env.now - card.createdAt ≤ TOKEN_REFRESH_THRESHOLD →
      (card.inputingStarted = true ∨ env.inputingResult = Except.ok ()) →
      env.streamResult = Except.error e → is401 e = true →
      env.retryRefreshResult = Except.ok tok →
      (streamAICard env card content finished).events.countP isTokenRefreshEvent = 1 ∧
      (streamAICard env card content finished).events.countP
        (isSameRetryUpdate content finished) = 1) ∧
    (∀ e tok e₂, (card.inputingStarted = true ∨ env.inputingResult = Except.ok ()) →
      env.streamResult = Except.error e → is401 e = true →
      env.retryRefreshResult = Except.ok tok →
      env.retryStreamResult = Except.error e₂ →
      (streamAICard env card content finished).card.state = FAILED ∧
      (streamAICard env card content finished).card.lastUpdated = env.now ∧
      (streamAICard env card content finished).result = Except.error e) ∧
    (∀ e e₂, (card.inputingStarted = true ∨ env.inputingResult = Except.ok ()) →
      env.streamResult = Except.error e → is401 e = true →
      env.retryRefreshResult = Except.error e₂ →
      (streamAICard env card content finished).card.state = FAILED ∧
      (streamAICard env card content finished).card.lastUpdated = env.now ∧
      (streamAICard env card content finished).result = Except.error e ∧
      (streamAICard env card content finished).events.countP isRetryStreamEvent = 0) := by
  refine ⟨?_, ?_, ?_, ?_, ?_⟩
  · intro e hflag herr
    rw [streamAICard_switch_fail env card content finished e hflag herr]
    exact ⟨rfl, (preRefresh_fields env card).1, (preRefresh_fields env card).2.1⟩
  · intro e hreach hs h4
    by_cases hflag : card.inputingStarted = true
    · rw [streamAICard_started env card content finished hflag,
        streamBody_fail env _ content finished _ e hs h4]
      exact ⟨rfl, rfl, rfl⟩
    · have hok : env.inputingResult = Except.ok () := by
        rcases hreach with h | h
        · exact absurd h hflag
        · exact h
      rw [streamAICard_switch_ok env card content finished
          (Bool.not_eq_true _ ▸ hflag) hok,
        streamBody_fail env _ content finished _ e hs h4]
      exact ⟨rfl, rfl, rfl⟩
  · intro e tok hnopre hreach hs h4 hr
    have hpr := preRefresh_no_refresh env card hnopre
    have hcount : ∀ c₀ evs₀, evs₀.countP isTokenRefreshEvent = 0 →
        evs₀.countP (isSameRetryUpdate content finished) = 0 →
        (streamBody env c₀ content finished evs₀).events.countP isTokenRefreshEvent = 1 ∧
        (streamBody env c₀ content finished evs₀).events.countP
          (isSameRetryUpdate content finished) = 1 := by
      intro c₀ evs₀ h1 h2
      cases hretry : env.retryStreamResult with
      | ok v =>
        rw [streamBody_401_retry_ok env c₀ content finished evs₀ e tok hs h4 hr hretry]
        simp [List.countP_append, List.countP_cons, h1, h2, isTokenRefreshEvent,
          isSameRetryUpdate]
      | error e₂ =>
        rw [streamBody_401_retry_fail env c₀ content finished evs₀ e e₂ tok hs h4 hr hretry]
        simp [List.countP_append, List.countP_cons, h1, h2, isTokenRefreshEvent,
          isSameRetryUpdate]
    by_cases hflag : card.inputingStarted = true
    · rw [streamAICard_started env card content finished hflag, hpr]
      exact hcount card [] (by simp) (by simp)
    · have hok : env.inputingResult = Except.ok () := by
        rcases hreach with h | h
        · exact absurd h hflag
        · exact h
      rw [streamAICard_switch_ok env card content finished
          (Bool.not_eq_true _ ▸ hflag) hok, hpr]
      exact hcount _ [CardEvent.inputingSwitch true]
        (by simp [List.countP_cons, isTokenRefreshEvent])
        (by simp [List.countP_cons, isSameRetryUpdate])
  · intro e tok e₂ hreach hs h4 hr hretry
    by_cases hflag : card.inputingStarted = true
    · rw [streamAICard_started env card content finished hflag,
        streamBody_401_retry_fail env _ content finished _ e e₂ tok hs h4 hr hretry]
      exact ⟨rfl, rfl, rfl⟩
    · have hok : env.inputingResult = Except.ok () := by
        rcases hreach with h | h
        · exact absurd h hflag
        · exact h
      rw [streamAICard_switch_ok env card content finished
          (Bool.not_eq_true _ ▸ hflag) hok,
        streamBody_401_retry_fail env _ content finished _ e e₂ tok hs h4 hr hretry]
      exact ⟨rfl, rfl, rfl⟩
  · intro e e₂ hreach hs h4 hr
    have hcount : ∀ (c₀ : AICardInstance) (evs₀ : List CardEvent),
        evs₀.countP isRetryStreamEvent = 0 →
        (streamBody env c₀ content finished evs₀).card.state = FAILED ∧
        (streamBody env c₀ content finished evs₀).card.lastUpdated = env.now ∧
        (streamBody env c₀ content finished evs₀).result = Except.error e ∧
        (streamBody env c₀ content finished evs₀).events.countP isRetryStreamEvent = 0 := by
      intro c₀ evs₀ h1
      rw [streamBody_401_refresh_fail env c₀ content finished evs₀ e e₂ hs h4 hr]
      refine ⟨rfl, rfl, rfl, ?_⟩
      simp [List.countP_append, List.countP_cons, h1, isRetryStreamEvent]
    by_cases hflag : card.inputingStarted = true
    · rw [streamAICard_started env card content finished hflag]
      refine hcount _ _ ?_
      have := preRefresh_fields env card
      unfold preRefresh
      by_cases h : TOKEN_REFRESH_THRESHOLD < env.now - card.createdAt
      · cases hr' : env.refreshResult <;>
          simp [h, hr', List.countP_cons, isRetryStreamEvent]
      · simp [h]
    · have hok : env.inputingResult = Except.ok () := by
        rcases hreach with h | h
        · exact absurd h hflag
        · exact h
      rw [streamAICard_switch_ok env card content finished
          (Bool.not_eq_true _ ▸ hflag) hok]
      refine hcount _ _ ?_
      rw [List.countP_append]
      have h2 : (preRefresh env card).2.countP isRetryStreamEvent = 0 := by
        unfold preRefresh
        by_cases h : TOKEN_REFRESH_THRESHOLD < env.now - card.createdAt
        · cases hr' : env.refreshResult <;>
            simp [h, hr', List.countP_cons, isRetryStreamEvent]
        · simp [h]
      simp [h2, List.countP_cons, isRetryStreamEvent]

theorem c1_push_failure_handling_witness :
    (streamAICard inputingFailEnv freshCard "hello" false).result =
        Except.error (JsError.otherErr "boom") ∧
    (streamAICard inputingFailEnv freshCard "hello" false).card.state =
      freshCard.state ∧
    (streamAICard inputingFailEnv freshCard "hello" false).card.lastUpdated =
      freshCard.lastUpdated :=
  (c1_push_failure_handling inputingFailEnv freshCard "hello" false).1
    (JsError.otherErr "boom") rfl rfl

/-! ## C3: no regression from a terminal state -/

/-- C3 is corrected: a successful push with `finalize = true` on an instance
already in `Failed` moves the state to `Finished` — the terminal state does
not stay unchanged as the claim requires. -/
theorem c3_counterexample :
    (streamAICard okEnv { freshCard with state := FAILED, inputingStarted := true }
        "x" true).card.state = FINISHED ∧
    isCardInTerminalState FAILED = true ∧ FINISHED ≠ FAILED := by
  decide

/-- C3 (amended): a successful non-finalize push leaves a terminal state
unchanged, but a successful finalize push (also via `finishAICard`) sets
`Finished` even from `Failed`, and `updateCardState` overwrites the stored
state and `lastUpdated` unconditionally, terminal or not. -/
theorem c3_terminal_state (env : StreamEnv) (card : AICardInstance)
    (content : String) (m : List (String × AICardInstance))
    (id st' : String) (now : Nat) :
    (isCardInTerminalState card.state = true →
      (card.inputingStarted = true ∨ env.inputingResult = Except.ok ()) →
      env.streamResult = Except.ok () →
      (streamAICard env card content false).card.state = card.state) ∧
    ((card.inputingStarted = true ∨ env.inputingResult = Except.ok ()) →
      env.streamResult = Except.ok () →
      (streamAICard env card content true).card.state = FINISHED ∧
      (finishAICard env card content).card.state = FINISHED) ∧
    (∀ c, mapGet m id = some c →
      mapGet (updateCardState m id st' now) id =
        some { c with state := st', lastUpdated := now }) := by
  have hbody : ∀ (c₀ : AICardInstance) (evs₀ : List CardEvent) (fin : Bool),
      env.streamResult = Except.ok () →
      (streamBody env c₀ content fin evs₀).card.state =
        (if fin then FINISHED
         else if c₀.state == PROCESSING then INPUTING else c₀.state) := by
    intro c₀ evs₀ fin hs
    rw [streamBody_ok env c₀ content fin evs₀ hs]
    rfl
  have hterm_ne : isCardInTerminalState card.state = true →
      (card.state == PROCESSING) = false := by
    intro h
    simp only [isCardInTerminalState, FINISHED, FAILED, Bool.or_eq_true, beq_iff_eq] at h
    rcases h with h | h <;> simp [h, PROCESSING]
  refine ⟨?_, ?_, ?_⟩
  · intro hterm hreach hs
    by_cases hflag : card.inputingStarted = true
    · rw [streamAICard_started env card content false hflag, hbody _ _ false hs]
      simp [(preRefresh_fields env card).1, hterm_ne hterm]
    · have hok : env.inputingResult = Except.ok () := by
        rcases hreach with h | h
        · exact absurd h hflag
        · exact h
      rw [streamAICard_switch_ok env card content false
          (Bool.not_eq_true _ ▸ hflag) hok, hbody _ _ false hs]
      simp [(preRefresh_fields env card).1, hterm_ne hterm]
  · intro hreach hs
    have h1 : (streamAICard env card content true).card.state = FINISHED := by
      by_cases hflag : card.inputingStarted = true
      · rw [streamAICard_started env card content true hflag, hbody _ _ true hs]
        rfl
      · have hok : env.inputingResult = Except.ok () := by
          rcases hreach with h | h
          · exact absurd h hflag
          · exact h
        rw [streamAICard_switch_ok env card content true
            (Bool.not_eq_true _ ▸ hflag) hok, hbody _ _ true hs]
        rfl
    exact ⟨h1, h1⟩
  · intro c hc
    simp [updateCardState, hc, mapGet_set_self]

theorem c3_terminal_state_witness :
    (streamAICard okEnv { freshCard with state := FAILED, inputingStarted := true }
        "x" false).card.state =
      ({ freshCard with state := FAILED, inputingStarted := true } :
        AICardInstance).state :=
  (c3_terminal_state okEnv { freshCard with state := FAILED, inputingStarted := true }
      "x" [] "i" FAILED 5).1 (by decide) (Or.inl rfl) rfl

/-! ## C2: the INPUTING transition across a sequence of pushes -/

theorem preRefresh_events (env : StreamEnv) (card : AICardInstance) :
    (preRefresh env card).2.all
      (fun e => !isInputingEvent e && !isStreamEvent e) = true := by
  unfold preRefresh
  by_cases h : TOKEN_REFRESH_THRESHOLD < env.now - card.createdAt
  · cases hr : env.refreshResult <;> simp [h, hr, isInputingEvent, isStreamEvent]
  · simp [h]

theorem streamBody_events_tail (env : StreamEnv) (c₀ : AICardInstance)
    (content : String) (finished : Bool) (evs : List CardEvent) :
    ∃ tail, (streamBody env c₀ content finished evs).events = evs ++ tail ∧
      tail.all (fun e => !isInputingEvent e) = true := by
  unfold streamBody
  cases hs : env.streamResult with
  | ok v => exact ⟨_, rfl, by simp [isInputingEvent]⟩
  | error e =>
    by_cases h4 : is401 e = true
    · simp only [h4, if_true]
      cases hr : env.retryRefreshResult with
      | ok tok =>
        cases hretry : env.retryStreamResult with
        | ok v => exact ⟨_, rfl, by simp [isInputingEvent]⟩
        | error e₂ => exact ⟨_, rfl, by simp [isInputingEvent]⟩
      | error e₂ => exact ⟨_, rfl, by simp [isInputingEvent]⟩
    · simp only [h4, if_false]
      exact ⟨_, rfl, by simp [isInputingEvent]⟩

theorem streamBody_flag (env : StreamEnv) (c₀ : AICardInstance)
    (content : String) (finished : Bool) (evs : List CardEvent) :
    (streamBody env c₀ content finished evs).card.inputingStarted =
      c₀.inputingStarted := by
  unfold streamBody
  cases hs : env.streamResult with
  | ok v => simp [advanceOnSuccess]
  | error e =>
    by_cases h4 : is401 e = true
    · simp only [h4, if_true]
      cases hr : env.retryRefreshResult with
      | ok tok =>
        cases hretry : env.retryStreamResult with
        | ok v => simp [advanceOnSuccess]
        | error e₂ => simp [markFailed]
      | error e₂ => simp [markFailed]
    · simp only [h4, if_false]
      simp [markFailed]

theorem no_inputing_countP_succ (l : List CardEvent)
    (h : l.all (fun e => !isInputingEvent e) = true) :
    l.countP isSuccessfulInputingEvent = 0 := by
  rw [List.countP_eq_zero]
  intro a ha
  have := (List.all_eq_true.mp h) a ha
  cases a <;> simp [isInputingEvent, isSuccessfulInputingEvent] at this ⊢

theorem switchesPrecedeStreams_of_all (l : List CardEvent)
    (h : l.all (fun e => !isInputingEvent e) = true) :
    switchesPrecedeStreams l = true := by
  induction l with
  | nil => rfl
  | cons e es ih =>
    simp only [List.all_cons, Bool.and_eq_true] at h
    by_cases hs : isStreamEvent e = true
    · simp [switchesPrecedeStreams, hs, h.2]
    · simp only [switchesPrecedeStreams, hs, if_false]
      exact ih h.2

theorem switchesPrecedeStreams_append (l₁ l₂ : List CardEvent)
    (h : l₁.all (fun e => !isStreamEvent e) = true) :
    switchesPrecedeStreams (l₁ ++ l₂) = switchesPrecedeStreams l₂ := by
  induction l₁ with
  | nil => rfl
  | cons e es ih =>
    simp only [List.all_cons, Bool.and_eq_true] at h
    have he : isStreamEvent e = false := by
      cases hse : isStreamEvent e
      · rfl
      · rw [hse] at h; exact absurd h.1 (by simp)
    simp only [List.cons_append, switchesPrecedeStreams, he, Bool.false_eq_true, if_false]
    exact ih h.2

theorem streamAICard_started_trace (env : StreamEnv) (card : AICardInstance)
    (content : String) (finished : Bool) (hflag : card.inputingStarted = true) :
    (streamAICard env card content finished).events.all
        (fun e => !isInputingEvent e) = true ∧
    (streamAICard env card content finished).card.inputingStarted = true := by
  rw [streamAICard_started env card content finished hflag]
  obtain ⟨tail, hev, htail⟩ :=
    streamBody_events_tail env (preRefresh env card).1 content finished
      (preRefresh env card).2
  constructor
  · rw [hev, List.all_append, Bool.and_eq_true]
    refine ⟨?_, htail⟩
    have hpre := preRefresh_events env card
    rw [List.all_eq_true] at hpre ⊢
    intro a ha
    have := hpre a ha
    simp only [Bool.and_eq_true] at this
    exact this.1
  · rw [streamBody_flag]
    rw [(preRefresh_fields env card).2.2]
    exact hflag

theorem runCalls_no_inputing (calls : List PushCall) :
    ∀ card, card.inputingStarted = true →
      (runCalls card calls).2.all (fun e => !isInputingEvent e) = true := by
  induction calls with
  | nil => intro card _; rfl
  | cons c cs ih =>
    intro card hflag
    simp only [runCalls, List.all_append, Bool.and_eq_true]
    obtain ⟨h1, h2⟩ := streamAICard_started_trace c.env card c.content c.finished hflag
    exact ⟨h1, ih _ h2⟩

theorem streamAICard_unstarted_cases (env : StreamEnv) (card : AICardInstance)
    (content : String) (finished : Bool) (hflag : card.inputingStarted = false) :
    ((streamAICard env card content finished).events =
        (preRefresh env card).2 ++ [CardEvent.inputingSwitch false] ∧
      (streamAICard env card content finished).card.inputingStarted = false) ∨
    (∃ tail, (streamAICard env card content finished).events =
        ((preRefresh env card).2 ++ [CardEvent.inputingSwitch true]) ++ tail ∧
      tail.all (fun e => !isInputingEvent e) = true ∧
      (streamAICard env card content finished).card.inputingStarted = true) := by
  cases hin : env.inputingResult with
  | error e =>
    left
    rw [streamAICard_switch_fail env card content finished e hflag hin]
    exact ⟨rfl, (preRefresh_fields env card).2.2.trans hflag⟩
  | ok v =>
    right
    rw [streamAICard_switch_ok env card content finished hflag hin]
    obtain ⟨tail, hev, htail⟩ :=
      streamBody_events_tail env { (preRefresh env card).1 with inputingStarted := true }
        content finished ((preRefresh env card).2 ++ [CardEvent.inputingSwitch true])
    exact ⟨tail, hev, htail, by rw [streamBody_flag]⟩

/-- C2 is corrected: when the INPUTING transition fails, `inputingStarted`
stays `false` and the next push issues the transition request again — two
pushes with failing transitions issue it twice, not "at most once". -/
theorem c2_counterexample :
    (runCalls freshCard
        [⟨inputingFailEnv, "a", false⟩, ⟨inputingFailEnv, "b", false⟩]).2.countP
      isInputingEvent = 2 := by
  decide

/-- C2 (amended): across any sequence of pushes on one instance, the
INPUTING transition may be re-attempted while earlier attempts fail, but it
SUCCEEDS at most once, and every transition request (successful or not) is
issued before the first content-replace update of the sequence — both
enforced through the instance's `inputingStarted` flag. -/
theorem c2_inputing_before_streams (card : AICardInstance) (calls : List PushCall)
    (hflag : card.inputingStarted = false) :
    (runCalls card calls).2.countP isSuccessfulInputingEvent ≤ 1 ∧
    switchesPrecedeStreams (runCalls card calls).2 = true := by
  induction calls generalizing card with
  | nil => simp [runCalls, switchesPrecedeStreams]
  | cons c cs ih =>
    simp only [runCalls]
    have hpre := preRefresh_events c.env card
    have hpre_ni : (preRefresh c.env card).2.all (fun e => !isInputingEvent e) = true := by
      rw [List.all_eq_true] at hpre ⊢
      intro a ha
      exact ((Bool.and_eq_true _ _).mp (hpre a ha)).1
    have hpre_ns : (preRefresh c.env card).2.all (fun e => !isStreamEvent e) = true := by
      rw [List.all_eq_true] at hpre ⊢
      intro a ha
      exact ((Bool.and_eq_true _ _).mp (hpre a ha)).2
    rcases streamAICard_unstarted_cases c.env card c.content c.finished hflag with
      ⟨hev, hflag'⟩ | ⟨tail, hev, htail, hflag'⟩
    · obtain ⟨ih1, ih2⟩ := ih _ hflag'
      rw [hev]
      constructor
      · rw [List.countP_append, List.countP_append]
        have h1 : (preRefresh c.env card).2.countP isSuccessfulInputingEvent = 0 :=
          no_inputing_countP_succ _ hpre_ni
        simp [h1, List.countP_cons, isSuccessfulInputingEvent]
        omega
      · rw [List.append_assoc,
          switchesPrecedeStreams_append _ _ hpre_ns,
          switchesPrecedeStreams_append _ _ (by simp [isStreamEvent])]
        exact ih2
    · have hrest := runCalls_no_inputing cs _ hflag'
      rw [hev]
      constructor
      · rw [List.countP_append, List.countP_append, List.countP_append]
        have h1 : (preRefresh c.env card).2.countP isSuccessfulInputingEvent = 0 :=
          no_inputing_countP_succ _ hpre_ni
        have h2 : tail.countP isSuccessfulInputingEvent = 0 :=
          no_inputing_countP_succ _ htail
        have h3 : (runCalls (streamAICard c.env card c.content c.finished).card cs).2.countP
            isSuccessfulInputingEvent = 0 :=
          no_inputing_countP_succ _ hrest
        simp [h1, h2, h3, List.countP_cons, isSuccessfulInputingEvent]
      · rw [List.append_assoc, List.append_assoc,
          switchesPrecedeStreams_append _ _ hpre_ns,
          switchesPrecedeStreams_append _ _ (by simp [isStreamEvent])]
        refine switchesPrecedeStreams_of_all _ ?_
        rw [List.all_append, Bool.and_eq_true]
        exact ⟨htail, hrest⟩

theorem c2_inputing_before_streams_witness :
    (runCalls freshCard [⟨okEnv, "hello", false⟩]).2.countP
        isSuccessfulInputingEvent ≤ 1 ∧
    switchesPrecedeStreams (runCalls freshCard [⟨okEnv, "hello", false⟩]).2 = true :=
  c2_inputing_before_streams freshCard [⟨okEnv, "hello", false⟩] rfl

/-! ## C9: exponential backoff retry -/

theorem retryAux_executions_le {E T : Type} (results : Nat → Except E T)
    (jitter : Nat → ℚ) (baseDelay maxDelay : ℚ) :
    ∀ (remaining attempt : Nat),
      (retryAux results jitter baseDelay maxDelay attempt remaining).executions ≤
        remaining + 1 := by
  intro remaining
  induction remaining with
  | zero =>
    intro attempt
    cases h : results attempt <;> simp [retryAux, h]
  | succ r ih =>
    intro attempt
    cases h : results attempt with
    | ok v => simp [retryAux, h]
    | error e =>
      simp only [retryAux, h]
      have := ih (attempt + 1)
      omega

theorem retryAux_delays {E T : Type} (results : Nat → Except E T)
    (jitter : Nat → ℚ) (baseDelay maxDelay : ℚ) :
    ∀ (remaining attempt i : Nat),
      i < (retryAux results jitter baseDelay maxDelay attempt remaining).delays.length →
      (retryAux results jitter baseDelay maxDelay attempt remaining).delays.get? i =
        some (min (baseDelay * 2 ^ (attempt + i) + jitter (attempt + i)) maxDelay) := by
  intro remaining
  induction remaining with
  | zero =>
    intro attempt i hi
    cases h : results attempt <;> simp [retryAux, h] at hi
  | succ r ih =>
    intro attempt i hi
    cases h : results attempt with
    | ok v => simp [retryAux, h] at hi
    | error e =>
      simp only [retryAux, h] at hi ⊢
      cases i with
      | zero => simp
      | succ j =>
        simp only [List.length_cons, Nat.add_lt_add_iff_right] at hi
        have := ih (attempt + 1) j hi
        simpa [Nat.add_assoc, Nat.add_comm 1 j] using this

theorem retryAux_allfail {E T : Type} (results : Nat → Except E T)
    (jitter : Nat → ℚ) (baseDelay maxDelay : ℚ) :
    ∀ (remaining attempt : Nat) (e : E),
      (∀ a, a ≤ attempt + remaining → ∃ e', results a = Except.error e') →
      results (attempt + remaining) = Except.error e →
      (retryAux results jitter baseDelay maxDelay attempt remaining).result =
          Except.error e ∧
        (retryAux results jitter baseDelay maxDelay attempt remaining).executions =
          remaining + 1 := by
  intro remaining
  induction remaining with
  | zero =>
    intro attempt e _ hlast
    simp only [Nat.add_zero] at hlast
    simp [retryAux, hlast]
  | succ r ih =>
    intro attempt e hall hlast
    obtain ⟨e₀, he₀⟩ := hall attempt (by omega)
    have hall' : ∀ a, a ≤ attempt + 1 + r → ∃ e', results a = Except.error e' := by
      intro a ha; exact hall a (by omega)
    have hlast' : results (attempt + 1 + r) = Except.error e := by
      have : attempt + 1 + r = attempt + (r + 1) := by omega
      rw [this]; exact hlast
    have := ih (attempt + 1) e hall' hlast'
    simp only [retryAux, he₀]
    exact ⟨this.1, by omega⟩

/-- C9: `retryWithBackoff` executes the operation at most `maxRetries + 1`
times; every recorded wait before attempt `i + 1` equals
`min(baseDelay * 2 ^ i + jitter, maxDelay)` with the jitter in `[0, 1000)`;
and when every attempt fails, the error of the final attempt is re-raised
after exactly `maxRetries + 1` executions. -/
theorem c9_retry_backoff {E T : Type} (results : Nat → Except E T)
    (jitter : Nat → ℚ) (maxRetries : Nat) (baseDelay maxDelay : ℚ)
    (hj : ∀ a, 0 ≤ jitter a ∧ jitter a < 1000) :
    (retryWithBackoff results jitter maxRetries baseDelay maxDelay).executions ≤
        maxRetries + 1 ∧
    (∀ i, i < (retryWithBackoff results jitter maxRetries baseDelay maxDelay).delays.length →
      (retryWithBackoff results jitter maxRetries baseDelay maxDelay).delays.get? i =
          some (min (baseDelay * 2 ^ i + jitter i) maxDelay) ∧
        0 ≤ jitter i ∧ jitter i < 1000) ∧
    (∀ e, (∀ a, a ≤ maxRetries → ∃ e', results a = Except.error e') →
      results maxRetries = Except.error e →
      (retryWithBackoff results jitter maxRetries baseDelay maxDelay).result =
          Except.error e ∧
        (retryWithBackoff results jitter maxRetries baseDelay maxDelay).executions =
          maxRetries + 1) := by
  refine ⟨retryAux_executions_le results jitter baseDelay maxDelay maxRetries 0, ?_, ?_⟩
  · intro i hi
    have h1 := retryAux_delays results jitter baseDelay maxDelay maxRetries 0 i hi
    refine ⟨?_, hj i⟩
    simpa [retryWithBackoff] using h1
  · intro e hall hlast
    have := retryAux_allfail results jitter baseDelay maxDelay maxRetries 0 e
      (by simpa using hall) (by simpa using hlast)
    simpa [retryWithBackoff] using this

/-! ## C10: fragments yielded by the stream consumer -/

theorem streamFromGateway_truthy (parse : List Char → Option Json) :
    ∀ (lines : List (List Char)) (f : Json), f ∈ streamFromGateway parse lines →
      truthy f = true := by
  intro lines
  induction lines with
  | nil =>
    intro f hf
    simp [streamFromGateway] at hf
  | cons line rest ih =>
    intro f hf
    simp only [streamFromGateway] at hf
    split at hf
    · exact ih f hf
    · split at hf
      · simp at hf
      · split at hf
        · exact ih f hf
        · split at hf
          · split at hf
            · rcases List.mem_cons.mp hf with h | h
              · subst h; assumption
              · exact ih f h
            · exact ih f hf
          · exact ih f hf

/-- C10 is corrected: a wire line whose parsed delta content is a truthy
non-string JSON value (here the number 1) is yielded as-is, so not every
yielded fragment is a non-empty string. -/
theorem c10_counterexample :
    streamFromGateway parseNum ["data: x".data] = [Json.num 1] ∧
    (streamFromGateway parseNum ["data: x".data]).all isNonEmptyStringJson = false :=
  ⟨rfl, rfl⟩

/-- C10 (amended): every fragment yielded by `streamFromGateway` is a truthy
JSON value (in particular never an empty string, `null`, `false` or `0`);
lines lacking the `data: ` marker, lines whose JSON fails to parse, and
parsed events whose delta content is absent or falsy yield no fragment. -/
theorem c10_stream_fragments (parse : List Char → Option Json)
    (lines : List (List Char)) (line : List Char) (rest : List (List Char)) :
    (∀ f ∈ streamFromGateway parse lines, truthy f = true) ∧
    (isPre "data: ".data line = false →
      streamFromGateway parse (line :: rest) = streamFromGateway parse rest) ∧
    (isPre "data: ".data line = true →
      ¬(jsTrim (line.drop 6) = "[DONE]".data) →
      parse (jsTrim (line.drop 6)) = none →
      streamFromGateway parse (line :: rest) = streamFromGateway parse rest) ∧
    (∀ chunk, isPre "data: ".data line = true →
      ¬(jsTrim (line.drop 6) = "[DONE]".data) →
      parse (jsTrim (line.drop 6)) = some chunk →
      (deltaContent chunk = none ∨
        ∃ c, deltaContent chunk = some c ∧ truthy c = false) →
      streamFromGateway parse (line :: rest) = streamFromGateway parse rest) := by
  refine ⟨fun f hf => streamFromGateway_truthy parse lines f hf, ?_, ?_, ?_⟩
  · intro h
    simp [streamFromGateway, h]
  · intro h hdone hparse
    have hd : (jsTrim (line.drop 6) == "[DONE]".data) = false := by
      simpa using hdone
    simp [streamFromGateway, h, hd, hparse]
  · intro chunk h hdone hparse hc
    have hd : (jsTrim (line.drop 6) == "[DONE]".data) = false := by
      simpa using hdone
    rcases hc with hnone | ⟨c, hsome, hfalsy⟩
    · simp [streamFromGateway, h, hd, hparse, hnone]
    · simp [streamFromGateway, h, hd, hparse, hsome, hfalsy]

theorem c10_stream_fragments_witness :
    truthy (Json.num 1) = true :=
  (c10_stream_fragments parseNum ["data: x".data] "noise".data []).1
    (Json.num 1) (List.Mem.head _)

theorem c9_retry_backoff_witness :
    (retryWithBackoff (fun _ => (Except.error "boom" : Except String Nat))
        (fun _ => (500 : ℚ)) 2 1000 10000).result = Except.error "boom" ∧
    (retryWithBackoff (fun _ => (Except.error "boom" : Except String Nat))
        (fun _ => (500 : ℚ)) 2 1000 10000).executions = 2 + 1 :=
  (c9_retry_backoff (fun _ => (Except.error "boom" : Except String Nat))
      (fun _ => (500 : ℚ)) 2 1000 10000 (by intro a; norm_num)).2.2 "boom"
    (by intro a _; exact ⟨"boom", rfl⟩) rfl

/-! ## Marker-scanner lemmas -/

theorem isPre_length : ∀ (p s : List Char), isPre p s = true → p.length ≤ s.length := by
  intro p
  induction p with
  | nil => intro s _; simp
  | cons a ps ih =>
    intro s h
    cases s with
    | nil => simp [isPre] at h
    | cons b bs =>
      simp only [isPre, Bool.and_eq_true] at h
      have := ih bs h.2
      simp only [List.length_cons]
      omega

theorem isPre_refl_append : ∀ (p s : List Char), isPre p (p ++ s) = true := by
  intro p s
  induction p with
  | nil => rfl
  | cons a ps ih => simp [isPre, ih]

theorem findClose_rest_length (kind : List Char) :
    ∀ (s inner rest : List Char), findClose kind s = some (inner, rest) →
      rest.length ≤ s.length := by
  intro s
  induction s with
  | nil => intro inner rest h; simp [findClose] at h
  | cons c cs ih =>
    intro inner rest h
    simp only [findClose] at h
    split at h
    · simp only [Option.some.injEq, Prod.mk.injEq] at h
      obtain ⟨-, hr⟩ := h
      subst hr
      simp only [List.length_drop, List.length_cons]
      omega
    · split at h
      · exact absurd h (by simp)
      · cases hm : findClose kind cs with
        | some pr =>
          obtain ⟨i, r⟩ := pr
          rw [hm] at h
          simp only [Option.some.injEq, Prod.mk.injEq] at h
          obtain ⟨-, hr⟩ := h
          subst hr
          have := ih i r hm
          simp only [List.length_cons]
          omega
        | none =>
          rw [hm] at h
          exact absurd h (by simp)

theorem tryMatchAt_rest_length (kind s : List Char) (p rest : List Char)
    (h : tryMatchAt kind s = some (p, rest)) : rest.length < s.length := by
  unfold tryMatchAt at h
  split at h
  · rename_i hpre
    cases hm : findClose kind (s.drop (openTag kind ++ ['{']).length) with
    | some pr =>
      obtain ⟨i, r⟩ := pr
      rw [hm] at h
      simp only [Option.some.injEq, Prod.mk.injEq] at h
      have h1 := findClose_rest_length kind _ i r hm
      have h2 := isPre_length _ _ hpre
      have h4 : 1 ≤ (openTag kind ++ ['{']).length := by simp
      rw [← h.2]
      simp only [List.length_drop] at h1
      omega
    | none =>
      rw [hm] at h
      exact absurd h (by simp)
  · exact absurd h (by simp)

theorem tryMatchAt_nil (kind : List Char) : tryMatchAt kind [] = none := by
  simp [tryMatchAt, openTag, isPre]

theorem tryMatchAt_head_ne (kind : List Char) (c : Char) (cs : List Char)
    (hc : c ≠ '[') : tryMatchAt kind (c :: cs) = none := by
  have hp : isPre (openTag kind ++ ['{']) (c :: cs) = false := by
    have hb : ('[' == c) = false := by
      simp only [beq_eq_false_iff_ne, ne_eq]
      exact fun he => hc he.symm
    simp [openTag, isPre, hb]
  simp [tryMatchAt, hp]

theorem scanAux_fuel (kind : List Char) :
    ∀ (fuel₁ : Nat) (s : List Char) (fuel₂ : Nat), s.length ≤ fuel₁ → s.length ≤ fuel₂ →
      scanAux kind fuel₁ s = scanAux kind fuel₂ s := by
  intro fuel₁
  induction fuel₁ with
  | zero =>
    intro s fuel₂ h1 _
    have hs : s = [] := List.eq_nil_of_length_eq_zero (Nat.le_zero.mp h1)
    subst hs
    cases fuel₂ <;> simp [scanAux]
  | succ f ih =>
    intro s fuel₂ h1 h2
    cases s with
    | nil => cases fuel₂ <;> simp [scanAux]
    | cons c cs =>
      cases fuel₂ with
      | zero => simp at h2
      | succ f₂ =>
        simp only [scanAux]
        split
        · rename_i p rest hm
          have hlt := tryMatchAt_rest_length kind (c :: cs) p rest hm
          simp only [List.length_cons] at h1 h2 hlt
          rw [ih rest f₂ (by omega) (by omega)]
        · simp only [List.length_cons] at h1 h2
          rw [ih cs f₂ (by omega) (by omega)]

theorem scanMarkers_step_none (kind : List Char) (c : Char) (cs : List Char)
    (h : tryMatchAt kind (c :: cs) = none) :
    scanMarkers kind (c :: cs) = ((scanMarkers kind cs).1, c :: (scanMarkers kind cs).2) := by
  unfold scanMarkers
  simp only [List.length_cons, scanAux, h]

theorem scanMarkers_step_some (kind : List Char) (s p rest : List Char)
    (h : tryMatchAt kind s = some (p, rest)) :
    scanMarkers kind s = (p :: (scanMarkers kind rest).1, (scanMarkers kind rest).2) := by
  cases s with
  | nil => rw [tryMatchAt_nil] at h; exact absurd h (by simp)
  | cons c cs =>
    have hlt := tryMatchAt_rest_length kind (c :: cs) p rest h
    unfold scanMarkers
    simp only [List.length_cons, scanAux, h]
    simp only [List.length_cons] at hlt
    rw [scanAux_fuel kind cs.length rest rest.length (by omega) (le_refl _)]

theorem scanAux_nobracket (kind : List Char) :
    ∀ (fuel : Nat) (s : List Char), '[' ∉ s → scanAux kind fuel s = ([], s) := by
  intro fuel
  induction fuel with
  | zero => intro s _; rfl
  | succ f ih =>
    intro s h
    cases s with
    | nil => rfl
    | cons c cs =>
      have hc : c ≠ '[' := by
        intro he
        exact h (he ▸ List.mem_cons_self c cs)
      simp only [scanAux, tryMatchAt_head_ne kind c cs hc]
      rw [ih cs (fun hm => h (List.mem_cons_of_mem c hm))]

theorem scanMarkers_nobracket (kind : List Char) (s : List Char) (h : '[' ∉ s) :
    scanMarkers kind s = ([], s) :=
  scanAux_nobracket kind s.length s h

theorem scanMarkers_clean_append (kind : List Char) :
    ∀ (pre s : List Char), '[' ∉ pre →
      scanMarkers kind (pre ++ s) =
        ((scanMarkers kind s).1, pre ++ (scanMarkers kind s).2) := by
  intro pre
  induction pre with
  | nil => intro s _; simp
  | cons c p ih =>
    intro s h
    have hc : c ≠ '[' := by
      intro he
      exact h (he ▸ List.mem_cons_self c p)
    rw [List.cons_append,
      scanMarkers_step_none kind c (p ++ s) (tryMatchAt_head_ne kind c (p ++ s) hc),
      ih s (fun hm => h (List.mem_cons_of_mem c hm))]
    simp

theorem findClose_marker (kind : List Char) :
    ∀ (inner rest : List Char), '[' ∉ inner →
      (∀ x ∈ inner, isLineTerminator x = false) →
      findClose kind (inner ++ '}' :: (closeTag kind ++ rest)) = some (inner, rest) := by
  intro inner
  induction inner with
  | nil =>
    intro rest _ _
    simp only [List.nil_append, findClose, beq_self_eq_true, isPre_refl_append,
      Bool.and_self, if_true]
    rw [List.drop_left]
  | cons c tl ih =>
    intro rest hbr hnl
    have hc_br : c ≠ '[' := by
      intro he; exact hbr (he ▸ List.mem_cons_self c tl)
    have hc_lt : isLineTerminator c = false := hnl c (List.mem_cons_self c tl)
    have htl_br : '[' ∉ tl := fun hm => hbr (List.mem_cons_of_mem c hm)
    have htl_lt : ∀ x ∈ tl, isLineTerminator x = false :=
      fun x hm => hnl x (List.mem_cons_of_mem c hm)
    have hcond : (c == '}' &&
        isPre (closeTag kind) (tl ++ '}' :: (closeTag kind ++ rest))) = false := by
      by_cases hc : c = '}'
      · subst hc
        have hfalse : isPre (closeTag kind) (tl ++ '}' :: (closeTag kind ++ rest)) = false := by
          cases tl with
          | nil => simp [closeTag, isPre]
          | cons d tl' =>
            have hd : d ≠ '[' := by
              intro he; exact htl_br (he ▸ List.mem_cons_self d tl')
            have hb : ('[' == d) = false := by
              simp only [beq_eq_false_iff_ne, ne_eq]
              exact fun he => hd he.symm
            simp [closeTag, isPre, hb]
        simp [hfalse]
      · simp [hc]
    simp only [List.cons_append, findClose, List.append_eq, hcond,
      Bool.false_eq_true, if_false, hc_lt, ih rest htl_br htl_lt]

theorem tryMatchAt_marker (kind : List Char) (inner s : List Char)
    (hbr : '[' ∉ inner) (hnl : ∀ x ∈ inner, isLineTerminator x = false) :
    tryMatchAt kind (mkMarker kind inner ++ s) =
      some ('{' :: (inner ++ ['}']), s) := by
  have hsplit : mkMarker kind inner ++ s =
      (openTag kind ++ ['{']) ++ (inner ++ '}' :: (closeTag kind ++ s)) := by
    simp [mkMarker, List.append_assoc]
  rw [hsplit]
  unfold tryMatchAt
  rw [isPre_refl_append, if_pos rfl, List.drop_left, findClose_marker kind inner s hbr hnl]

theorem scanMarkers_markedText (kind : List Char) :
    ∀ (parts : List (List Char × List Char)) (pre : List Char),
      '[' ∉ pre →
      (∀ q ∈ parts, '[' ∉ q.1 ∧ (∀ x ∈ q.1, isLineTerminator x = false) ∧ '[' ∉ q.2) →
      scanMarkers kind (markedText kind pre parts) =
        (parts.map (fun q => '{' :: (q.1 ++ ['}'])),
          pre ++ (parts.map Prod.snd).flatten) := by
  intro parts
  induction parts with
  | nil =>
    intro pre hpre _
    simp [markedText, scanMarkers_nobracket kind pre hpre]
  | cons q qs ih =>
    intro pre hpre hparts
    obtain ⟨inner, seg⟩ := q
    have hq := hparts ⟨inner, seg⟩ (by simp)
    have hstep : markedText kind pre (⟨inner, seg⟩ :: qs) =
        pre ++ (mkMarker kind inner ++ markedText kind seg qs) := by
      simp [markedText, List.append_assoc]
    rw [hstep, scanMarkers_clean_append kind pre _ hpre,
      scanMarkers_step_some kind _ _ _
        (tryMatchAt_marker kind inner (markedText kind seg qs) hq.1 hq.2.1),
      ih seg hq.2.2 (fun q' hq' => hparts q' (List.mem_cons_of_mem _ hq'))]
    simp

theorem not_mem_jsTrim (c : Char) (s : List Char) (h : c ∉ s) : c ∉ jsTrim s := by
  intro hc
  apply h
  unfold jsTrim at hc
  have h1 := List.mem_reverse.mp hc
  have h2 := (List.dropWhile_sublist (l := (s.dropWhile isJsWs).reverse)
    (p := isJsWs)).subset h1
  have h3 := List.mem_reverse.mp h2
  exact (List.dropWhile_sublist (l := s) (p := isJsWs)).subset h3

/-! ## Post-processing pass lemmas -/

theorem processFileMarkers_content (env : FileEnv) (tok : Option (List Char))
    (content : List Char) :
    (processFileMarkers env tok content).content =
      jsTrim (scanMarkers fileKind content).2 := by
  cases tok with
  | none => rfl
  | some t =>
    simp only [processFileMarkers]
    split <;> rfl

theorem processAudioMarkers_content (env : AudioEnv) (tok : Option (List Char))
    (content : List Char) :
    (processAudioMarkers env tok content).content =
      jsTrim (scanMarkers audioKind content).2 := by
  cases tok with
  | none => rfl
  | some t =>
    simp only [processAudioMarkers]
    split <;> rfl

theorem filterMap_length_countP {α β : Type} (f : α → Option β) (p : α → Bool)
    (hfp : ∀ a, (f a).isSome = p a) :
    ∀ l : List α, (l.filterMap f).length = l.countP p := by
  intro l
  induction l with
  | nil => rfl
  | cons a l ih =>
    rw [List.filterMap_cons, List.countP_cons, ← hfp a]
    cases hfa : f a with
    | some b => simp [hfa, ih]
    | none => simp [hfa, ih]

theorem filterMap_partition_length {α β γ : Type} (f : α → Option β) (g : α → Option γ)
    (p : α → Bool) (hfp : ∀ a, ((f a).isSome || (g a).isSome) = p a)
    (hdis : ∀ a, (f a).isSome = true → (g a).isSome = false) :
    ∀ l : List α, (l.filterMap f).length + (l.filterMap g).length = l.countP p := by
  intro l
  induction l with
  | nil => rfl
  | cons a l ih =>
    rw [List.filterMap_cons, List.filterMap_cons, List.countP_cons, ← hfp a]
    cases hfa : f a with
    | some b =>
      cases hga : g a with
      | some c =>
        exfalso
        have := hdis a (by simp [hfa])
        rw [hga] at this
        simp at this
      | none =>
        simp only [hfa, hga, Option.isSome_some, Option.isSome_none, Bool.true_or,
          if_true, List.length_cons]
        omega
    | none =>
      cases hga : g a with
      | some c =>
        simp only [hfa, hga, Option.isSome_none, Option.isSome_some, Bool.false_or,
          if_true, List.length_cons]
        omega
      | none =>
        simp only [hfa, hga, Option.isSome_none, Bool.or_self, Bool.false_eq_true,
          if_false, Nat.add_zero]
        exact ih

theorem fileWellFormed_isSome (env : FileEnv) :
    ∀ a, (match env.parse a with
        | some info =>
            if !info.path.isEmpty && !info.fileName.isEmpty then some info else none
        | none => (none : Option FileInfoV)).isSome = fileWellFormed env a := by
  intro a
  unfold fileWellFormed
  cases hp : env.parse a with
  | none => rfl
  | some info =>
    dsimp only
    cases hc : (!info.path.isEmpty && !info.fileName.isEmpty) <;> simp

theorem audioValid_or_invalid_isSome (env : AudioEnv) :
    ∀ a, ((match env.parse a with
        | some info =>
            if !info.path.isEmpty && env.fsExists info.path then some info else none
        | none => (none : Option AudioInfoV)).isSome ||
      (match env.parse a with
        | some info =>
            if !info.path.isEmpty && env.fsExists info.path then none
            else some (if info.path.isEmpty then "unknown".data else info.path)
        | none => (none : Option (List Char))).isSome) = audioWellFormed env a := by
  intro a
  unfold audioWellFormed
  cases hp : env.parse a with
  | none => rfl
  | some info =>
    dsimp only
    cases hc : (!info.path.isEmpty && env.fsExists info.path) <;> simp

theorem audioValid_invalid_disjoint (env : AudioEnv) :
    ∀ a, (match env.parse a with
        | some info =>
            if !info.path.isEmpty && env.fsExists info.path then some info else none
        | none => (none : Option AudioInfoV)).isSome = true →
      (match env.parse a with
        | some info =>
            if !info.path.isEmpty && env.fsExists info.path then none
            else some (if info.path.isEmpty then "unknown".data else info.path)
        | none => (none : Option (List Char))).isSome = false := by
  intro a h
  cases hp : env.parse a with
  | none => rfl
  | some info =>
    rw [hp] at h
    dsimp only at h ⊢
    cases hc : (!info.path.isEmpty && env.fsExists info.path)
    · rw [hc] at h
      simp at h
    · simp

theorem processFileMarkers_status_length (env : FileEnv) (tok : List Char)
    (content : List Char) :
    (processFileMarkers env (some tok) content).statusMessages.length =
      ((scanMarkers fileKind content).1).countP (fileWellFormed env) := by
  simp only [processFileMarkers]
  split
  · rename_i he
    rw [List.isEmpty_iff] at he
    have h0 := filterMap_length_countP _ (fileWellFormed env)
      (fileWellFormed_isSome env) (scanMarkers fileKind content).1
    rw [he] at h0
    simpa using h0
  · simp only [List.length_map]
    exact filterMap_length_countP _ (fileWellFormed env)
      (fileWellFormed_isSome env) (scanMarkers fileKind content).1

theorem processAudioMarkers_status_length (env : AudioEnv) (tok : List Char)
    (content : List Char) :
    (processAudioMarkers env (some tok) content).statusMessages.length =
      ((scanMarkers audioKind content).1).countP (audioWellFormed env) := by
  have h0 := filterMap_partition_length _ _ (audioWellFormed env)
    (audioValid_or_invalid_isSome env) (audioValid_invalid_disjoint env)
    (scanMarkers audioKind content).1
  simp only [processAudioMarkers]
  split
  · rename_i he
    rw [List.isEmpty_iff] at he
    rw [he] at h0
    simpa using h0
  · simp only [List.length_append, List.length_map]
    rw [Nat.add_comm]
    exact h0

theorem countP_eq_length_of_all {α : Type} (p : α → Bool) (l : List α)
    (h : ∀ a ∈ l, p a = true) : l.countP p = l.length := by
  induction l with
  | nil => rfl
  | cons a l ih =>
    simp only [List.countP_cons, h a (by simp), if_true, List.length_cons]
    rw [ih (fun b hb => h b (List.mem_cons_of_mem a hb))]

theorem marker_output_clean (kind : List Char) (pre : List Char)
    (parts : List (List Char × List Char))
    (hpre : '[' ∉ pre)
    (hparts : ∀ q ∈ parts, '[' ∉ q.1 ∧ (∀ x ∈ q.1, isLineTerminator x = false) ∧ '[' ∉ q.2) :
    countMarkers kind (jsTrim (scanMarkers kind (markedText kind pre parts)).2) = 0 := by
  rw [scanMarkers_markedText kind parts pre hpre hparts]
  have hout : '[' ∉ pre ++ (parts.map Prod.snd).flatten := by
    intro hm
    rcases List.mem_append.mp hm with h | h
    · exact hpre h
    · rcases List.mem_flatten.mp h with ⟨seg, hseg, hc⟩
      rcases List.mem_map.mp hseg with ⟨q, hq, hEq⟩
      subst hEq
      exact (hparts q hq).2.2 hc
  have hnm := not_mem_jsTrim '[' _ hout
  simp [countMarkers, scanMarkers_nobracket kind _ hnm]

/-! ## C7: marker round-trip -/

/-- C7: with an upload credential present, a text interleaving marker-free
segments with well-formed markers of one kind comes out of that kind's pass
with zero remaining markers of the kind and exactly one status line per
original marker ­— shown for the file pass and the audio pass. -/
theorem c7_marker_roundtrip (fenv : FileEnv) (aenv : AudioEnv) (tok : List Char)
    (pre : List Char) (parts : List (List Char × List Char))
    (hpre : '[' ∉ pre)
    (hparts : ∀ q ∈ parts, '[' ∉ q.1 ∧ (∀ x ∈ q.1, isLineTerminator x = false) ∧ '[' ∉ q.2)
    (hfile : ∀ q ∈ parts, fileWellFormed fenv ('{' :: (q.1 ++ ['}'])) = true)
    (haudio : ∀ q ∈ parts, audioWellFormed aenv ('{' :: (q.1 ++ ['}'])) = true) :
    (countMarkers fileKind
        (processFileMarkers fenv (some tok) (markedText fileKind pre parts)).content = 0 ∧
      (processFileMarkers fenv (some tok)
          (markedText fileKind pre parts)).statusMessages.length = parts.length) ∧
    (countMarkers audioKind
        (processAudioMarkers aenv (some tok) (markedText audioKind pre parts)).content = 0 ∧
      (processAudioMarkers aenv (some tok)
          (markedText audioKind pre parts)).statusMessages.length = parts.length) := by
  refine ⟨⟨?_, ?_⟩, ⟨?_, ?_⟩⟩
  · rw [processFileMarkers_content]
    exact marker_output_clean fileKind pre parts hpre hparts
  · rw [processFileMarkers_status_length]
    simp only [scanMarkers_markedText fileKind parts pre hpre hparts]
    have hall : ∀ a ∈ parts.map (fun q => '{' :: (q.1 ++ ['}'])),
        fileWellFormed fenv a = true := by
      intro a ha
      rcases List.mem_map.mp ha with ⟨q, hq, hEq⟩
      subst hEq
      exact hfile q hq
    rw [countP_eq_length_of_all _ _ hall, List.length_map]
  · rw [processAudioMarkers_content]
    exact marker_output_clean audioKind pre parts hpre hparts
  · rw [processAudioMarkers_status_length]
    simp only [scanMarkers_markedText audioKind parts pre hpre hparts]
    have hall : ∀ a ∈ parts.map (fun q => '{' :: (q.1 ++ ['}'])),
        audioWellFormed aenv a = true := by
      intro a ha
      rcases List.mem_map.mp ha with ⟨q, hq, hEq⟩
      subst hEq
      exact haudio q hq
    rw [countP_eq_length_of_all _ _ hall, List.length_map]

theorem c7_marker_roundtrip_witness :
    (countMarkers fileKind
        (processFileMarkers fenvW (some ['t'])
          (markedText fileKind ['h'] [(['p'], ['s'])])).content = 0 ∧
      (processFileMarkers fenvW (some ['t'])
          (markedText fileKind ['h'] [(['p'], ['s'])])).statusMessages.length = 1) ∧
    (countMarkers audioKind
        (processAudioMarkers aenvW (some ['t'])
          (markedText audioKind ['h'] [(['p'], ['s'])])).content = 0 ∧
      (processAudioMarkers aenvW (some ['t'])
          (markedText audioKind ['h'] [(['p'], ['s'])])).statusMessages.length = 1) :=
  c7_marker_roundtrip fenvW aenvW ['t'] ['h'] [(['p'], ['s'])]
    (by decide) (by decide) (by decide) (by decide)

/-! ## C8: malformed marker payloads -/

/-- C8 is corrected: a marker whose JSON payload fails to parse is stripped
and processing continues, but NO status line is substituted for it — the
pass returns an empty status list for a lone malformed marker. -/
theorem c8_counterexample :
    (processAudioMarkers aenvBad (some ['t'])
        (mkMarker audioKind ['o', 'o', 'p', 's'])).statusMessages = [] ∧
    countMarkers audioKind
      (processAudioMarkers aenvBad (some ['t'])
        (mkMarker audioKind ['o', 'o', 'p', 's'])).content = 0 := by
  exact ⟨rfl, rfl⟩

/-- C8 (amended): a marker with a malformed JSON payload is dropped from the
text and the remaining markers keep being processed, but no status line is
substituted for it: the pass emits exactly one status line per well-formed
marker and zero for malformed ones, and strips every marker either way. -/
theorem c8_malformed_marker_handling (fenv : FileEnv) (aenv : AudioEnv)
    (tok pre : List Char) (parts : List (List Char × List Char))
    (hpre : '[' ∉ pre)
    (hparts : ∀ q ∈ parts, '[' ∉ q.1 ∧ (∀ x ∈ q.1, isLineTerminator x = false) ∧ '[' ∉ q.2) :
    ((processFileMarkers fenv (some tok)
        (markedText fileKind pre parts)).statusMessages.length =
          (parts.map (fun q => '{' :: (q.1 ++ ['}']))).countP (fileWellFormed fenv) ∧
      countMarkers fileKind
        (processFileMarkers fenv (some tok) (markedText fileKind pre parts)).content = 0) ∧
    ((processAudioMarkers aenv (some tok)
        (markedText audioKind pre parts)).statusMessages.length =
          (parts.map (fun q => '{' :: (q.1 ++ ['}']))).countP (audioWellFormed aenv) ∧
      countMarkers audioKind
        (processAudioMarkers aenv (some tok) (markedText audioKind pre parts)).content = 0) := by
  refine ⟨⟨?_, ?_⟩, ⟨?_, ?_⟩⟩
  · rw [processFileMarkers_status_length]
    simp only [scanMarkers_markedText fileKind parts pre hpre hparts]
  · rw [processFileMarkers_content]
    exact marker_output_clean fileKind pre parts hpre hparts
  · rw [processAudioMarkers_status_length]
    simp only [scanMarkers_markedText audioKind parts pre hpre hparts]
  · rw [processAudioMarkers_content]
    exact marker_output_clean audioKind pre parts hpre hparts

theorem c8_malformed_marker_handling_witness :
    ((processFileMarkers fenvMixed (some ['t'])
        (markedText fileKind ['h'] [(['p'], ['s']), (['q'], ['u'])])).statusMessages.length =
          ([(['p'], ['s']), (['q'], ['u'])].map
            (fun q => '{' :: (q.1 ++ ['}']))).countP (fileWellFormed fenvMixed) ∧
      countMarkers fileKind
        (processFileMarkers fenvMixed (some ['t'])
          (markedText fileKind ['h'] [(['p'], ['s']), (['q'], ['u'])])).content = 0) ∧
    ((processAudioMarkers aenvMixed (some ['t'])
        (markedText audioKind ['h'] [(['p'], ['s']), (['q'], ['u'])])).statusMessages.length =
          ([(['p'], ['s']), (['q'], ['u'])].map
            (fun q => '{' :: (q.1 ++ ['}']))).countP (audioWellFormed aenvMixed) ∧
      countMarkers audioKind
        (processAudioMarkers aenvMixed (some ['t'])
          (markedText audioKind ['h'] [(['p'], ['s']), (['q'], ['u'])])).content = 0) :=
  c8_malformed_marker_handling fenvMixed aenvMixed ['t'] ['h']
    [(['p'], ['s']), (['q'], ['u'])] (by decide) (by decide)

end DingTalk
